import Mathlib

/-!
Verification of the Google-Tasks synchronization core of the
obsidian-reminder-ntfy plugin: the checksum function, the metadata codec,
the token lifecycle manager, the retry/refresh execution wrapper and the
reconciliation engine, shallowly embedded from the TypeScript sources
(src/plugin/google-tasks-converter.ts, src/plugin/google-tasks.ts and the
main plugin file).
-/

namespace GT

/-! ### JavaScript-style whitespace and trimming

Models the character class `\s` of JavaScript regular expressions and the
whitespace set of `String.prototype.trim` / `trimEnd`, restricted to the
common members (the exotic Unicode space code points are not produced by
any code path of the plugin). -/

def isJsSpace (c : Char) : Bool :=
  c = ' ' || c = '\t' || c = '\n' || c = '\r' || c = '\x0b' || c = '\x0c' || c = '\xa0'

def jsTrimList (l : List Char) : List Char :=
  ((l.dropWhile isJsSpace).reverse.dropWhile isJsSpace).reverse

def jsTrimEndList (l : List Char) : List Char :=
  (l.reverse.dropWhile isJsSpace).reverse

def jsTrim (s : String) : String :=
  String.mk (jsTrimList s.data)

/-! ### Checksum function

Embeds `simpleHash` and `generateReminderChecksum` from
src/plugin/google-tasks-converter.ts.  JavaScript `(hash << 5) - hash + char`
with `hash |= 0` is 32-bit wrapping arithmetic on signed integers; `char` is
the UTF-16 code unit, which for the code points handled here equals
`Char.toNat`. -/

def wrap32 (x : Int) : Int :=
  (x + 2 ^ 31) % 2 ^ 32 - 2 ^ 31

def hashStep (h : Int) (c : Char) : Int :=
  wrap32 (wrap32 (h * 32) - h + c.toNat)

def hashVal (s : String) : Int :=
  s.data.foldl hashStep 0

/-- Hex rendering of `Number.prototype.toString(16)`: lowercase digits, a
leading minus sign for negative values. -/
def toHexString (n : Int) : String :=
  if n < 0 then "-" ++ String.mk (Nat.toDigits 16 (-n).toNat)
  else String.mk (Nat.toDigits 16 n.toNat)

def simpleHash (s : String) : String :=
  toHexString (hashVal s)

/-- The due timestamp as the reconciliation code renders it:
`reminder.time.moment().toISOString()` when a time is present, else the
string produced by `String(null)`. -/
def renderDue (due : Option String) : String :=
  match due with
  | some s => s
  | none => "null"

/-- The canonical pre-hash string of `generateReminderChecksum`:
`[title.trim(), iso-or-null, done].map(String).join("|~|")`. -/
def canonicalString (title : String) (due : Option String) (done : Bool) : String :=
  jsTrim title ++ "|~|" ++ renderDue due ++ "|~|" ++ (if done then "true" else "false")

/-- A reminder as seen by the checksum function: its raw title, its due
timestamp already rendered to an ISO-8601 string (or `none`), and its
completion flag. -/
structure CReminder where
  title : String
  due : Option String
  done : Bool
  deriving DecidableEq, Repr

def generateReminderChecksum (r : CReminder) : String :=
  simpleHash (canonicalString r.title r.due r.done)

/-! ### Token lifecycle manager

Embeds the token state of `GoogleTasksService` in src/plugin/google-tasks.ts:
`this.tokenData` (in-memory) and the `localStorage` records
(`google_tasks_token_data`, `google_tasks_code_verifier`,
`google_tasks_redirect_uri`).  Network interaction is embedded by passing the
token endpoint's response as an explicit value. -/

structure TokenData where
  access_token : String
  refresh_token : String
  expires_at : Int
  deriving DecidableEq, Repr

structure TokenStore where
  /-- `this.tokenData` -/
  memory : Option TokenData
  /-- `localStorage["google_tasks_token_data"]` (already parsed; a stored
  record that fails to parse is embedded as `none`) -/
  persisted : Option TokenData
  /-- `localStorage["google_tasks_code_verifier"]` -/
  persistedVerifier : Option String
  /-- `localStorage["google_tasks_redirect_uri"]` -/
  persistedRedirect : Option String
  deriving DecidableEq, Repr

/-- The response of the OAuth token endpoint to a refresh request, as far as
`refreshToken` inspects it: a successful JSON body, an error body that parses
as JSON (with the optional `error` field), or an error body that fails to
parse as JSON. -/
inductive RefreshResponse where
  | ok (access_token : String) (refresh_token : Option String) (expires_in : Int)
  | errJson (status : Nat) (statusText : String) (error : Option String)
  | errRaw (status : Nat) (statusText : String) (raw : String)
  deriving DecidableEq, Repr

/-- `clearTokenData()` -/
def clearTokenData (_st : TokenStore) : TokenStore :=
  { memory := none, persisted := none, persistedVerifier := none, persistedRedirect := none }

/-- `isTokenExpired()`: JavaScript first tests `!this.tokenData?.expires_at`
(so a zero timestamp counts as expired), then compares against a 5-minute
buffer. -/
def isTokenExpired (td : TokenData) (now : Int) : Bool :=
  if td.expires_at = 0 then true else td.expires_at ≤ now + 300000

/-- The falsy test `errorData.error || "unknown error"`. -/
def jsErrorCode (e : Option String) : String :=
  match e with
  | some c => if c = "" then "unknown error" else c
  | none => "unknown error"

/-- `refreshToken()` (private): returns the updated store and either success
or the thrown error message.  On `invalid_grant` the whole store is cleared
via `clearTokenData` before the error is thrown; every other failure leaves
the store untouched. -/
def refreshToken (st : TokenStore) (now : Int) (resp : RefreshResponse) :
    TokenStore × Except String Unit :=
  match st.memory with
  | none => (st, .error "No refresh token available")
  | some td =>
    if td.refresh_token = "" then (st, .error "No refresh token available")
    else
      match resp with
      | .ok access refresh expiresIn =>
        let newRefresh :=
          match refresh with
          | some r => if r = "" then td.refresh_token else r
          | none => td.refresh_token
        let newTd : TokenData :=
          { access_token := access, refresh_token := newRefresh,
            expires_at := now + expiresIn * 1000 }
        ({ st with memory := some newTd, persisted := some newTd }, .ok ())
      | .errJson _status _statusText err =>
        let msg := "Token refresh failed: " ++ jsErrorCode err
        if err = some "invalid_grant" then (clearTokenData st, .error msg)
        else (st, .error msg)
      | .errRaw status statusText _raw =>
        (st, .error ("Token refresh failed: HTTP " ++ toString status ++ " " ++ statusText))

/-- `refreshAccessToken()` (public wrapper). -/
def refreshAccessToken (st : TokenStore) (now : Int) (resp : RefreshResponse) :
    TokenStore × Except String Unit :=
  match st.memory with
  | none => (st, .error "No refresh token available. Please authenticate first.")
  | some td =>
    if td.refresh_token = "" then
      (st, .error "No refresh token available. Please authenticate first.")
    else refreshToken st now resp

/-- `loadTokenData()` -/
def loadTokenData (st : TokenStore) : TokenStore :=
  { st with memory := st.persisted }

/-- `initialize()`: loads the persisted record, and if it is expiring attempts
a refresh; a failed refresh only discards the in-memory data (`this.tokenData
= null`), on top of whatever the refresh itself did to the store.  (Named
`initializeService` here because the source's name is a Lean keyword.) -/
def initializeService (st : TokenStore) (now : Int) (resp : RefreshResponse) : TokenStore :=
  let st1 := loadTokenData st
  match st1.memory with
  | none => st1
  | some td =>
    if isTokenExpired td now then
      let (st2, res) := refreshToken st1 now resp
      match res with
      | .ok _ => st2
      | .error _ => { st2 with memory := none }
    else st1

/-- `hasRefreshToken()`: reloads the persisted record when no in-memory data
is present, then tests `!!this.tokenData?.refresh_token`. -/
def hasRefreshToken (st : TokenStore) : TokenStore × Bool :=
  let st' := if st.memory.isNone then loadTokenData st else st
  (st', match st'.memory with
        | none => false
        | some td => td.refresh_token ≠ "")

/-! ### Retry/refresh execution wrapper

Embeds `executeWithRetry` from src/plugin/google-tasks.ts.  The sequence of
wrapped-call results is passed as a function from the attempt index to an
outcome; the outcome of the token refresh triggered by a 401 is attached to
that attempt.  Timer waits are collected in a trace instead of sleeping. -/

/-- A JavaScript error value, identified by its message. -/
abbrev JsErr := String

instance {ε α : Type} [DecidableEq ε] [DecidableEq α] : DecidableEq (Except ε α) := fun a b =>
  match a, b with
  | .error e1, .error e2 =>
    if h : e1 = e2 then .isTrue (by rw [h]) else .isFalse (by intro hh; cases hh; exact h rfl)
  | .error _, .ok _ => .isFalse (by intro h; cases h)
  | .ok _, .error _ => .isFalse (by intro h; cases h)
  | .ok a1, .ok a2 =>
    if h : a1 = a2 then .isTrue (by rw [h]) else .isFalse (by intro hh; cases hh; exact h rfl)

/-- What one invocation of the request producer leads to:
a 2xx response (returned), a 429 with an optional numeric `Retry-After`
header, a 401 together with the outcome of the refresh it triggers, another
non-2xx status with its body text (turned into a thrown `Error`), or a
rejection of the fetch itself. -/
inductive AttemptOutcome where
  | success
  | rate (retryAfter : Option Nat)
  | unauthorized (refreshResult : Except JsErr Unit)
  | httpError (status : Nat) (statusText : String) (body : String)
  | thrown (e : JsErr)
  deriving DecidableEq, Repr

/-- What `executeWithRetry` ends with: the successful response, `throw
lastError` with an actual error, or `throw lastError` while `lastError` is
still `null` because no attempt ever recorded an error. -/
inductive RetryResult where
  | ok
  | errThrown (e : JsErr)
  | nullThrown
  deriving DecidableEq, Repr

/-- One entry of the wait trace: a 429 wait taken from the `Retry-After`
header, a 429 wait taken from the exponential delay, or the backoff wait
after a caught error. -/
inductive WaitEvent where
  | rateHeader (seconds : Nat) (waitMs : Nat)
  | rateBackoff (waitMs : Nat)
  | errBackoff (waitMs : Nat)
  deriving DecidableEq, Repr

def WaitEvent.waitMs : WaitEvent → Nat
  | .rateHeader _ w => w
  | .rateBackoff w => w
  | .errBackoff w => w

/-- The error message built for a non-2xx, non-429, non-401 response.  (In
the source the `throw` inside the inner `try` is caught by its own bare
`catch`, so the raw-body form is always the one that escapes.) -/
def apiErrMsg (status : Nat) (statusText : String) (body : String) : JsErr :=
  "API error: " ++ toString status ++ " " ++ statusText ++ " - " ++ body

def throwLast (lastError : Option JsErr) : RetryResult :=
  match lastError with
  | some e => .errThrown e
  | none => .nullThrown

/-- The loop body of `executeWithRetry`.  `fuel` is the number of iterations
left (`maxRetries + 1 - i`), `i` the attempt index, `delay` the current
`retryDelay`. -/
def retryGo (outcomes : Nat → AttemptOutcome) (maxRetries : Nat) :
    Nat → Nat → Nat → Option JsErr → List WaitEvent → RetryResult × List WaitEvent
  | 0, _, _, lastError, acc => (throwLast lastError, acc.reverse)
  | fuel + 1, i, delay, lastError, acc =>
    match outcomes i with
    | .success => (.ok, acc.reverse)
    | .rate retryAfter =>
      let ev := match retryAfter with
                | some s => WaitEvent.rateHeader s (s * 1000)
                | none => WaitEvent.rateBackoff delay
      retryGo outcomes maxRetries fuel (i + 1) (delay * 2) lastError (ev :: acc)
    | .unauthorized (.ok _) =>
      retryGo outcomes maxRetries fuel (i + 1) delay lastError acc
    | .unauthorized (.error e) =>
      if i < maxRetries then
        retryGo outcomes maxRetries fuel (i + 1) (delay * 2) (some e)
          (WaitEvent.errBackoff delay :: acc)
      else retryGo outcomes maxRetries fuel (i + 1) delay (some e) acc
    | .httpError status statusText body =>
      let e := apiErrMsg status statusText body
      if i < maxRetries then
        retryGo outcomes maxRetries fuel (i + 1) (delay * 2) (some e)
          (WaitEvent.errBackoff delay :: acc)
      else retryGo outcomes maxRetries fuel (i + 1) delay (some e) acc
    | .thrown e =>
      if i < maxRetries then
        retryGo outcomes maxRetries fuel (i + 1) (delay * 2) (some e)
          (WaitEvent.errBackoff delay :: acc)
      else retryGo outcomes maxRetries fuel (i + 1) delay (some e) acc

/-- `executeWithRetry(requestFn, maxRetries)`: runs `maxRetries + 1` attempts
(`for attempt = 0; attempt <= maxRetries`), starting from a 1000 ms delay. -/
def executeWithRetry (outcomes : Nat → AttemptOutcome) (maxRetries : Nat := 3) :
    RetryResult × List WaitEvent :=
  retryGo outcomes maxRetries (maxRetries + 1) 0 1000 none []

/-- The error an attempt outcome records in `lastError` (none for a retried
429, a 401 whose refresh succeeded, or a success). -/
def errOfOutcome : AttemptOutcome → Option JsErr
  | .success => none
  | .rate _ => none
  | .unauthorized (.ok _) => none
  | .unauthorized (.error e) => some e
  | .httpError status statusText body => some (apiErrMsg status statusText body)
  | .thrown e => some e

/-- An outcome that ends the loop by returning. -/
def isSuccess : AttemptOutcome → Bool
  | .success => true
  | _ => false

/-- The errors recorded while running attempts `i, i+1, ..., i+len-1`. -/
def recordedErrors (outcomes : Nat → AttemptOutcome) (i len : Nat) : List JsErr :=
  (List.range' i len).filterMap (fun j => errOfOutcome (outcomes j))

/-! ### Metadata codec

Embeds `extractGoogleTaskMetadata` (src/plugin/google-tasks-converter.ts) and
`updateMarkdownLineWithMetadata` (main plugin file) at the level of character
lists, including the JavaScript regular expression
`<!--\s*gtask:(.*?)\s*-->`, `JSON.parse` and `JSON.stringify`. -/

/-- Matches the literal `p` at the head of `l` and returns the remainder. -/
def matchLit : List Char → List Char → Option (List Char)
  | [], l => some l
  | _ :: _, [] => none
  | p :: ps, c :: cs => if c = p then matchLit ps cs else none

/-- Matches `\s*-->` at the head of `l` and returns the remainder after
`-->`.  Greedy `\s*` followed by the literal is exact here because `-` is not
a whitespace character, so no backtracking is possible. -/
def closeAt (l : List Char) : Option (List Char) :=
  matchLit "-->".data (l.dropWhile isJsSpace)

/-- The lazy group `(.*?)\s*-->`: the shortest capture after which `\s*-->`
matches wins; `.` does not match a newline.  (On `[]` the close `\s*-->`
cannot match, so the empty case is directly `none`.) -/
def lazyCap : List Char → Option (List Char × List Char)
  | [] => none
  | c :: cs =>
    match closeAt (c :: cs) with
    | some rest => some ([], rest)
    | none =>
      if c = '\n' then none
      else (lazyCap cs).map (fun p => (c :: p.1, p.2))

/-- Matches the whole pattern `<!--\s*gtask:(.*?)\s*-->` anchored at the head
of `l`; returns the capture and the remainder after the full match. -/
def gtaskAt (l : List Char) : Option (List Char × List Char) :=
  match matchLit "<!--".data l with
  | none => none
  | some r1 =>
    match matchLit "gtask:".data (r1.dropWhile isJsSpace) with
    | none => none
    | some r3 => lazyCap r3

/-- Leftmost match: the capture of the first position where the pattern
matches (the semantics of `String.prototype.match` without `g`). -/
def findCapture : List Char → Option (List Char)
  | [] => none
  | c :: cs =>
    match gtaskAt (c :: cs) with
    | some (cap, _) => some cap
    | none => findCapture cs

/-- Global replacement of every match by the empty string (the semantics of
`replace(/<!--\s*gtask:.*?\s*-->/g, "")`): after a match the scan resumes at
the first character past it.  Runs on fuel; as every match consumes at least
one character, fuel `l.length` never runs out, so the fuel-exhausted branch
is unreachable. -/
def stripAllF : Nat → List Char → List Char
  | 0, l => l
  | _ + 1, [] => []
  | f + 1, c :: cs =>
    match gtaskAt (c :: cs) with
    | some (_, rest) => stripAllF f rest
    | none => c :: stripAllF f cs

def stripAll (l : List Char) : List Char :=
  stripAllF l.length l

/-! JSON values and `JSON.parse`, as far as the codec exercises them.  The
parser is a fuel-driven recursive-descent parser accepting exactly the JSON
grammar (one caveat: a `\u` escape denoting an unpaired surrogate is mapped
through `Char.ofNat`, which is lossy there; no code path of the plugin
produces one). -/

inductive JValue where
  | str (s : String)
  | num (raw : String)
  | bool (b : Bool)
  | null
  | arr (elems : List JValue)
  | obj (fields : List (String × JValue))

def isJsonWs (c : Char) : Bool :=
  c = ' ' || c = '\t' || c = '\n' || c = '\r'

def skipWs (l : List Char) : List Char :=
  l.dropWhile isJsonWs

def hexVal (c : Char) : Option Nat :=
  if '0' ≤ c ∧ c ≤ '9' then some (c.toNat - '0'.toNat)
  else if 'a' ≤ c ∧ c ≤ 'f' then some (c.toNat - 'a'.toNat + 10)
  else if 'A' ≤ c ∧ c ≤ 'F' then some (c.toNat - 'A'.toNat + 10)
  else none

/-- Parses the body of a JSON string (the opening quote already consumed);
returns the decoded characters and the remainder after the closing quote.
Fuel-driven (every step consumes at least one character, so fuel equal to the
input length never runs out). -/
def pStrF : Nat → List Char → Option (List Char × List Char)
  | 0, _ => none
  | _ + 1, [] => none
  | f + 1, c :: cs =>
    if c = '"' then some ([], cs)
    else if c = '\\' then
      match cs with
      | [] => none
      | e :: cs2 =>
        if e = '"' then (pStrF f cs2).map (fun p => ('"' :: p.1, p.2))
        else if e = '\\' then (pStrF f cs2).map (fun p => ('\\' :: p.1, p.2))
        else if e = '/' then (pStrF f cs2).map (fun p => ('/' :: p.1, p.2))
        else if e = 'b' then (pStrF f cs2).map (fun p => ('\x08' :: p.1, p.2))
        else if e = 'f' then (pStrF f cs2).map (fun p => ('\x0c' :: p.1, p.2))
        else if e = 'n' then (pStrF f cs2).map (fun p => ('\n' :: p.1, p.2))
        else if e = 'r' then (pStrF f cs2).map (fun p => ('\r' :: p.1, p.2))
        else if e = 't' then (pStrF f cs2).map (fun p => ('\t' :: p.1, p.2))
        else if e = 'u' then
          match cs2 with
          | a :: b :: c3 :: d :: cs3 =>
            match hexVal a, hexVal b, hexVal c3, hexVal d with
            | some ha, some hb, some hc, some hd =>
              (pStrF f cs3).map
                (fun p => (Char.ofNat (((ha * 16 + hb) * 16 + hc) * 16 + hd) :: p.1, p.2))
            | _, _, _, _ => none
          | _ => none
        else none
    else if c.toNat < 0x20 then none
    else (pStrF f cs).map (fun p => (c :: p.1, p.2))

def pStr (l : List Char) : Option (List Char × List Char) :=
  pStrF l.length l

def isDigitC (c : Char) : Bool := '0' ≤ c && c ≤ '9'

/-- `int` part of a JSON number: `0` or a nonzero digit followed by digits. -/
def pIntPart : List Char → Option (List Char × List Char)
  | [] => none
  | c :: cs =>
    if c = '0' then some (['0'], cs)
    else if '1' ≤ c ∧ c ≤ '9' then
      some (c :: cs.takeWhile isDigitC, cs.dropWhile isDigitC)
    else none

def pFracPart : List Char → Option (List Char × List Char)
  | '.' :: cs =>
    match cs.takeWhile isDigitC with
    | [] => none
    | ds => some ('.' :: ds, cs.dropWhile isDigitC)
  | l => some ([], l)

def pExpPart : List Char → Option (List Char × List Char)
  | c :: cs =>
    if c = 'e' ∨ c = 'E' then
      let (sgn, cs2) : List Char × List Char :=
        match cs with
        | s :: cs' => if s = '+' ∨ s = '-' then ([s], cs') else ([], cs)
        | [] => ([], [])
      match cs2.takeWhile isDigitC with
      | [] => none
      | ds => some (c :: sgn ++ ds, cs2.dropWhile isDigitC)
    else some ([], c :: cs)
  | [] => some ([], [])

def pNum (l : List Char) : Option (List Char × List Char) :=
  let (neg, l1) : List Char × List Char :=
    match l with
    | '-' :: cs => (['-'], cs)
    | _ => ([], l)
  match pIntPart l1 with
  | none => none
  | some (i, l2) =>
    match pFracPart l2 with
    | none => none
    | some (fr, l3) =>
      match pExpPart l3 with
      | none => none
      | some (ex, l4) => some (neg ++ i ++ fr ++ ex, l4)

mutual

/-- Parses one JSON value (leading whitespace allowed). -/
def pVal : Nat → List Char → Option (JValue × List Char)
  | 0, _ => none
  | f + 1, l =>
    match skipWs l with
    | [] => none
    | c :: cs =>
      if c = '"' then (pStr cs).map (fun p => (JValue.str (String.mk p.1), p.2))
      else if c = '\x7b' then pMembersStart f cs
      else if c = '[' then pElemsStart f cs
      else if c = 't' then (matchLit "rue".data cs).map (fun r => (JValue.bool true, r))
      else if c = 'f' then (matchLit "alse".data cs).map (fun r => (JValue.bool false, r))
      else if c = 'n' then (matchLit "ull".data cs).map (fun r => (JValue.null, r))
      else (pNum (c :: cs)).map (fun p => (JValue.num (String.mk p.1), p.2))

/-- Parses the members of an object (the `{` already consumed). -/
def pMembersStart : Nat → List Char → Option (JValue × List Char)
  | 0, _ => none
  | f + 1, l =>
    match skipWs l with
    | '\x7d' :: cs => some (JValue.obj [], cs)
    | l1 => pMember f l1 []

def pMember : Nat → List Char → List (String × JValue) → Option (JValue × List Char)
  | 0, _, _ => none
  | f + 1, l, acc =>
    match skipWs l with
    | '"' :: cs =>
      match pStr cs with
      | none => none
      | some (key, r1) =>
        match skipWs r1 with
        | ':' :: r2 =>
          match pVal f r2 with
          | none => none
          | some (v, r3) =>
            match skipWs r3 with
            | ',' :: r4 => pMember f r4 (acc ++ [(String.mk key, v)])
            | '\x7d' :: r4 => some (JValue.obj (acc ++ [(String.mk key, v)]), r4)
            | _ => none
        | _ => none
    | _ => none

/-- Parses the elements of an array (the `[` already consumed). -/
def pElemsStart : Nat → List Char → Option (JValue × List Char)
  | 0, _ => none
  | f + 1, l =>
    match skipWs l with
    | ']' :: cs => some (JValue.arr [], cs)
    | l1 => pElem f l1 []

def pElem : Nat → List Char → List JValue → Option (JValue × List Char)
  | 0, _, _ => none
  | f + 1, l, acc =>
    match pVal f l with
    | none => none
    | some (v, r1) =>
      match skipWs r1 with
      | ',' :: r2 => pElem f r2 (acc ++ [v])
      | ']' :: r2 => some (JValue.arr (acc ++ [v]), r2)
      | _ => none

end

/-- `JSON.parse`: one value, then only trailing whitespace.  The fuel
`2 * length + 4` is generous: every other fuel tick consumes at least one
input character. -/
def jsonParse (s : String) : Option JValue :=
  match pVal (2 * s.length + 4) s.data with
  | none => none
  | some (v, rest) => if (skipWs rest).isEmpty then some v else none

/-- Property lookup on the object produced by `JSON.parse`: a duplicated key
keeps its last occurrence. -/
def jlookup (fields : List (String × JValue)) (k : String) : Option JValue :=
  fields.foldl (fun acc kv => if kv.1 = k then some kv.2 else acc) none

structure GoogleTaskMetadata where
  id : String
  checksum : String
  deriving DecidableEq, Repr

/-- `extractGoogleTaskMetadata(reminderLine)`: runs the regular expression,
rejects an empty capture (`!match[1]`), trims, requires the trimmed text to
start with `{` and end with `}`, `JSON.parse`s it, and validates that `id`
and `checksum` are both strings; anything else yields `none` (the source
returns `null` from every failure path, including the `catch`). -/
def extractGoogleTaskMetadata (line : String) : Option GoogleTaskMetadata :=
  match findCapture line.data with
  | none => none
  | some cap =>
    if cap = [] then none
    else
      let s := jsTrimList cap
      if s.head? = some '\x7b' ∧ s.getLast? = some '\x7d' then
        match jsonParse (String.mk s) with
        | some (JValue.obj fields) =>
          match jlookup fields "id", jlookup fields "checksum" with
          | some (JValue.str i), some (JValue.str c) => some ⟨i, c⟩
          | _, _ => none
        | _ => none
      else none

def hexDigitChar (n : Nat) : Char :=
  if n < 10 then Char.ofNat ('0'.toNat + n) else Char.ofNat ('a'.toNat + n - 10)

/-- The escaping of one character inside a `JSON.stringify`d string. -/
def escChar (c : Char) : List Char :=
  if c = '"' then ['\\', '"']
  else if c = '\\' then ['\\', '\\']
  else if c = '\x08' then ['\\', 'b']
  else if c = '\x0c' then ['\\', 'f']
  else if c = '\n' then ['\\', 'n']
  else if c = '\r' then ['\\', 'r']
  else if c = '\t' then ['\\', 't']
  else if c.toNat < 0x20 then
    ['\\', 'u', '0', '0', hexDigitChar (c.toNat / 16), hexDigitChar (c.toNat % 16)]
  else [c]

def jsonQuote (s : String) : List Char :=
  '"' :: s.data.flatMap escChar ++ ['"']

/-- `JSON.stringify({id, checksum})` with the insertion order of the object
literals built by the plugin (`id` first). -/
def stringifyMetadata (m : GoogleTaskMetadata) : List Char :=
  '\x7b' :: "\"id\":".data ++ jsonQuote m.id ++
    ",\"checksum\":".data ++ jsonQuote m.checksum ++ ['\x7d']

/-- `updateMarkdownLineWithMetadata(originalLine, metadata)`: strip every
existing block, `trimEnd`, and unless the metadata is null append
`" <!-- gtask:" + JSON.stringify(metadata) + " -->"`. -/
def updateMarkdownLineWithMetadata (line : String) (metadata : Option GoogleTaskMetadata) :
    String :=
  let cleaned := jsTrimEndList (stripAll line.data)
  match metadata with
  | none => String.mk cleaned
  | some m => String.mk (cleaned ++ " <!-- gtask:".data ++ stringifyMetadata m ++ " -->".data)

/-! ### Reconciliation engine

Embeds `syncGoogleTasks` and its helpers from the main plugin file.  The
remote service is embedded as an explicit deterministic store: task ids are
natural numbers, `createTask` hands out the next value of a fresh-id counter,
`getTask` on an absent id stands for the 404 failure of the direct fetch.
The document line owned by a reminder is embedded by its three
reconciliation-relevant observations: whether the file/line is readable
(`getReminderMarkdownLine` succeeding), the state of its task checkbox
(the regex `/^(\s*[-*]|[0-9]+\.)\s*\[ \]/`), and the embedded gtask metadata
block; the string-level codec connecting this to raw text is verified
separately above. -/

inductive MTaskStatus where
  | needsAction
  | completed
  deriving DecidableEq, Repr

structure MTask where
  id : Nat
  title : String
  due : Option String
  status : MTaskStatus
  /-- the `showHidden:false` filter of the snapshot fetch excludes hidden
  tasks even when their status is `needsAction` -/
  hidden : Bool
  deriving DecidableEq, Repr

structure TaskInput where
  title : String
  due : Option String
  status : MTaskStatus
  deriving DecidableEq, Repr

structure MMeta where
  id : Nat
  checksum : String
  deriving DecidableEq, Repr

inductive CheckboxState where
  | unchecked
  | checked
  | noCheckbox
  deriving DecidableEq, Repr

structure MReminder where
  title : String
  /-- the due timestamp already rendered to the ISO string the converter
  produces, `none` when the reminder has no time -/
  due : Option String
  done : Bool
  /-- whether `getReminderMarkdownLine` succeeds for this reminder -/
  lineOk : Bool
  checkbox : CheckboxState
  /-- the metadata block `extractGoogleTaskMetadata` reads off the line -/
  metadata : Option MMeta
  deriving DecidableEq, Repr

structure Remote where
  tasks : List MTask
  /-- the next fresh server-side task id -/
  counter : Nat
  deriving DecidableEq, Repr

def checksumOf (r : MReminder) : String :=
  generateReminderChecksum ⟨r.title, r.due, r.done⟩

/-- `convertObsidianToGoogleTask`: trimmed title, the rendered due timestamp,
and `completed`/`needsAction` from the completion flag.  (The Obsidian
back-link placed in `notes` plays no role in reconciliation and is not
embedded.) -/
def convertObsidianToGoogleTask (r : MReminder) : TaskInput :=
  { title := jsTrim r.title, due := r.due,
    status := if r.done then .completed else .needsAction }

def findTask (rm : Remote) (id : Nat) : Option MTask :=
  rm.tasks.find? (fun t => t.id = id)

/-- `createTask`: the service stores the posted fields under a fresh id. -/
def createTask (rm : Remote) (inp : TaskInput) : Remote × MTask :=
  let t : MTask :=
    { id := rm.counter, title := inp.title, due := inp.due,
      status := inp.status, hidden := false }
  ({ tasks := rm.tasks ++ [t], counter := rm.counter + 1 }, t)

/-- PATCH semantics: fields present in the input overwrite, `due` absent from
the input leaves the stored value. -/
def patchTask (t : MTask) (inp : TaskInput) : MTask :=
  { t with title := inp.title, status := inp.status,
           due := match inp.due with | some d => some d | none => t.due }

/-- `updateTask`: `none` embeds the 404 failure of patching an absent id. -/
def updateTask (rm : Remote) (id : Nat) (inp : TaskInput) : Option Remote :=
  match findTask rm id with
  | none => none
  | some _ =>
    some { rm with tasks := rm.tasks.map (fun t => if t.id = id then patchTask t inp else t) }

/-- `getTask`: the direct fetch of one task; `none` embeds a 404. -/
def getTask (rm : Remote) (id : Nat) : Option MTask :=
  findTask rm id

/-- The snapshot `getTasks(listId, {showCompleted:false, showHidden:false})`. -/
def activeTasks (rm : Remote) : List MTask :=
  rm.tasks.filter (fun t => t.status = MTaskStatus.needsAction && t.hidden = false)

/-- `activeGoogleTasksMap.get(id)`: the map is built by a forEach `set`, so a
duplicated id keeps its last occurrence. -/
def activeMapGet (act : List MTask) (id : Nat) : Option MTask :=
  act.foldl (fun acc t => if t.id = id then some t else acc) none

inductive ItemStatus where
  | created
  | updated
  | recreated
  | skipped
  | completedLocally
  | error
  deriving DecidableEq, Repr

/-- The outcome of processing one reminder: its new line state, the new
remote store, the reported status, and the successive metadata writes
performed on the source line (the `metadata` argument of each
`updateReminderCommentInFile` call). -/
structure ItemResult where
  reminder : MReminder
  remote : Remote
  status : ItemStatus
  writes : List (Option MMeta)
  deriving DecidableEq, Repr

/-- `updateReminderCommentInFile` on a readable line always succeeds in this
embedding: it rewrites the metadata block of the reminder's line. -/
def updateReminderComment (r : MReminder) (m : Option MMeta) : MReminder :=
  { r with metadata := m }

/-- `handleCompleteObsidianReminder`: if the line carries an unchecked
checkbox it is flipped, `reminder.done` is set, and when a metadata block is
present on the original line its checksum is refreshed to the now-completed
state; a line in any other shape is left alone and still reported as
success. -/
def handleCompleteObsidianReminder (r : MReminder) : MReminder × Bool :=
  if r.lineOk = false then (r, false)
  else
    match r.checkbox with
    | .unchecked =>
      let r1 := { r with checkbox := CheckboxState.checked, done := true }
      let currentChecksum := checksumOf r1
      match r.metadata with
      | some md => ({ r1 with metadata := some ⟨md.id, currentChecksum⟩ }, true)
      | none => (r1, true)
    | _ => (r, true)

/-- `recreateGoogleTaskAndUpdateComment`: best-effort removal of the old
block, creation of a replacement task, then the fresh block. -/
def recreateGoogleTaskAndUpdateComment (r : MReminder) (rm : Remote)
    (taskInput : TaskInput) (currentChecksum : String) : ItemResult :=
  let r1 := updateReminderComment r none
  let (rm1, created) := createTask rm taskInput
  let newMeta : MMeta := ⟨created.id, currentChecksum⟩
  { reminder := updateReminderComment r1 (some newMeta), remote := rm1,
    status := .recreated, writes := [none, some newMeta] }

/-- `handleCreateGoogleTask` -/
def handleCreateGoogleTask (r : MReminder) (rm : Remote) : ItemResult :=
  let taskInput := convertObsidianToGoogleTask r
  let currentChecksum := checksumOf r
  let (rm1, created) := createTask rm taskInput
  let newMeta : MMeta := ⟨created.id, currentChecksum⟩
  { reminder := updateReminderComment r (some newMeta), remote := rm1,
    status := .created, writes := [some newMeta] }

/-- `handlePotentiallyStaleLink`: direct fetch of the linked id; a 404 or an
unexpected non-completed state recreates, a completed task is mirrored
locally. -/
def handlePotentiallyStaleLink (r : MReminder) (rm : Remote) (md : MMeta)
    (taskInput : TaskInput) (currentChecksum : String) : ItemResult :=
  match getTask rm md.id with
  | some t =>
    if t.status = MTaskStatus.completed then
      let (r', ok) := handleCompleteObsidianReminder r
      if ok then { reminder := r', remote := rm, status := .completedLocally, writes := [] }
      else { reminder := r', remote := rm, status := .error, writes := [] }
    else recreateGoogleTaskAndUpdateComment r rm taskInput currentChecksum
  | none => recreateGoogleTaskAndUpdateComment r rm taskInput currentChecksum

/-- `handleExistingTaskSync`: dispatch on the active snapshot and the stored
checksum. -/
def handleExistingTaskSync (act : List MTask) (r : MReminder) (rm : Remote) (md : MMeta)
    (currentChecksum : String) (taskInput : TaskInput) : ItemResult :=
  match activeMapGet act md.id with
  | some _ =>
    if md.checksum = currentChecksum then
      { reminder := r, remote := rm, status := .skipped, writes := [] }
    else
      match updateTask rm md.id taskInput with
      | some rm1 =>
        let updatedMeta : MMeta := ⟨md.id, currentChecksum⟩
        { reminder := updateReminderComment r (some updatedMeta), remote := rm1,
          status := .updated, writes := [some updatedMeta] }
      | none => { reminder := r, remote := rm, status := .error, writes := [] }
  | none => handlePotentiallyStaleLink r rm md taskInput currentChecksum

/-- The body of the reminder loop of `syncGoogleTasks` for one reminder. -/
def syncItem (act : List MTask) (rm : Remote) (r : MReminder) : ItemResult :=
  if r.lineOk = false then { reminder := r, remote := rm, status := .skipped, writes := [] }
  else
    let currentChecksum := checksumOf r
    let taskInput := convertObsidianToGoogleTask r
    match r.metadata with
    | some md => handleExistingTaskSync act r rm md currentChecksum taskInput
    | none => handleCreateGoogleTask r rm

/-- The outcome counters of a pass.  (The source lumps `recreated` into
`createdCount` when reporting; they are kept apart here.) -/
structure Counts where
  created : Nat
  updated : Nat
  recreated : Nat
  skipped : Nat
  completedLocally : Nat
  errored : Nat
  deriving DecidableEq, Repr

def Counts.zero : Counts := ⟨0, 0, 0, 0, 0, 0⟩

def Counts.bump (st : ItemStatus) (c : Counts) : Counts :=
  match st with
  | .created => { c with created := c.created + 1 }
  | .updated => { c with updated := c.updated + 1 }
  | .recreated => { c with recreated := c.recreated + 1 }
  | .skipped => { c with skipped := c.skipped + 1 }
  | .completedLocally => { c with completedLocally := c.completedLocally + 1 }
  | .error => { c with errored := c.errored + 1 }

/-- The serial reminder loop, threading the remote store and keeping the
fixed active snapshot taken before the loop. -/
def syncLoop (act : List MTask) : List MReminder → Remote → List MReminder × Remote × Counts
  | [], rm => ([], rm, Counts.zero)
  | r :: rs, rm =>
    let res := syncItem act rm r
    let (rs', rm', c) := syncLoop act rs res.remote
    (res.reminder :: rs', rm', Counts.bump res.status c)

structure MTaskList where
  id : Nat
  title : String
  deriving DecidableEq, Repr

structure SyncState where
  enabled : Bool
  authed : Bool
  listName : String
  lists : List MTaskList
  remote : Remote
  reminders : List MReminder
  deriving DecidableEq, Repr

inductive SyncOutcome where
  | notRun (s : SyncState)
  | ran (s : SyncState) (counts : Counts)
  deriving DecidableEq, Repr

/-- `syncGoogleTasks()`: early-out when disabled or unauthenticated; resolve
the target list by `getTaskListByName` (a `find` on the title) and — per the
source — return with an error notice when it is absent, without creating it;
otherwise snapshot the active tasks and run the loop. -/
def syncGoogleTasks (s : SyncState) : SyncOutcome :=
  if s.enabled = false then .notRun s
  else if s.authed = false then .notRun s
  else
    match s.lists.find? (fun l => l.title = s.listName) with
    | none => .notRun s
    | some _ =>
      let act := activeTasks s.remote
      let (rs', rm', c) := syncLoop act s.reminders s.remote
      .ran { s with reminders := rs', remote := rm' } c

/-- Well-formedness of the remote store: server-side task ids are unique and
below the fresh-id counter. -/
def remoteWF (rm : Remote) : Prop :=
  (rm.tasks.map MTask.id).Nodup ∧ ∀ t ∈ rm.tasks, t.id < rm.counter

instance (rm : Remote) : Decidable (remoteWF rm) := by
  unfold remoteWF; infer_instance

/-! ### Auxiliary predicates used by the statements below -/

/-- What each recorded wait must amount to, as a function of its position in
the wait trace: a 429 wait with a `Retry-After: s` header is `s` seconds, any
other wait is the exponential delay that starts at 1000 ms and has doubled
once per earlier wait. -/
def waitSpec (p : Nat) (ev : WaitEvent) : Prop :=
  match ev with
  | .rateHeader s w => w = s * 1000
  | .rateBackoff w => w = 1000 * 2 ^ p
  | .errBackoff w => w = 1000 * 2 ^ p

/-- A character of a metadata id or checksum that survives the codec
unscathed: not whitespace, not a quote or backslash (so `JSON.stringify`
leaves it alone), and not a control character.  The `-` the plugin's own
checksums start with (a 32-bit hash rendered by `toString(16)` is negative
about half the time) is allowed. -/
def safeMetaChar (c : Char) : Prop :=
  isJsSpace c = false ∧ c ≠ '"' ∧ c ≠ '\\' ∧ 0x20 ≤ c.toNat

instance (c : Char) : Decidable (safeMetaChar c) := by
  unfold safeMetaChar; infer_instance

def safeMetaStr (s : String) : Prop :=
  ∀ c ∈ s.data, safeMetaChar c

instance (s : String) : Decidable (safeMetaStr s) := by
  unfold safeMetaStr; infer_instance

/-- A value that nowhere contains the comment closer `-->` — the one shape
that makes the lazy regular expression close the comment early. -/
def noCloseStr (s : String) : Prop :=
  ¬ (('-' :: '-' :: '>' :: []) <:+: s.data)

instance (s : String) : Decidable (noCloseStr s) := by
  unfold noCloseStr; infer_instance

/-- Whether the gtask comment opener `<!--\s*gtask:` matches at the head of
`l` (the part of the pattern before the capture). -/
def gtaskOpen (l : List Char) : Bool :=
  match matchLit "<!--".data l with
  | none => false
  | some r1 => (matchLit "gtask:".data (r1.dropWhile isJsSpace)).isSome

/-- A line on which the gtask opener matches nowhere.  A benign HTML comment
(`<!-- note -->`) is fine; only `<!--` followed by optional whitespace and
`gtask:` is excluded. -/
def noGtaskOpen (line : String) : Prop :=
  ∀ s ∈ line.data.tails, gtaskOpen s = false

instance (line : String) : Decidable (noGtaskOpen line) := by
  unfold noGtaskOpen; infer_instance

/-- Stability of a reminder (with respect to a remote store) of the first
kind: its line holds metadata whose checksum matches the reminder and whose
id points at a non-hidden remote task.  Such an item is skipped (task still
active) or mirrored as completed (task completed) by a pass, never created,
updated or recreated. -/
def goodA (rm : Remote) (r : MReminder) : Prop :=
  ∃ md t, r.metadata = some md ∧ findTask rm md.id = some t ∧
    t.hidden = false ∧ md.checksum = checksumOf r

/-- Stability of the second kind: the metadata id — absent from the given
active snapshot — points at a completed remote task and the line's checkbox
is no longer unchecked, so a pass reports `completedLocally` without touching
anything. -/
def goodB (act : List MTask) (rm : Remote) (r : MReminder) : Prop :=
  ∃ md t, r.metadata = some md ∧ findTask rm md.id = some t ∧
    t.status = MTaskStatus.completed ∧ r.checkbox ≠ CheckboxState.unchecked ∧
    activeMapGet act md.id = none

/-- A reminder the next pass will neither create, update nor recreate. -/
def goodItem (act : List MTask) (rm : Remote) (r : MReminder) : Prop :=
  r.lineOk = false ∨ goodA rm r ∨ goodB act rm r

/-- The active-snapshot invariant threaded through a pass: every id the
snapshot knows is present in the current store and non-hidden. -/
def invAct (act : List MTask) (rm : Remote) : Prop :=
  ∀ t ∈ act, ∃ t', findTask rm t.id = some t' ∧ t'.hidden = false

/-- The remote mutations one step of the reminder loop can perform: nothing,
one `createTask`, or one `updateTask` on an id the fixed active snapshot
knows. -/
inductive RemoteStep (act : List MTask) : Remote → Remote → Prop where
  | refl (rm : Remote) : RemoteStep act rm rm
  | create (rm : Remote) (inp : TaskInput) : RemoteStep act rm (createTask rm inp).1
  | update (rm : Remote) (id : Nat) (inp : TaskInput) (rm' : Remote)
      (hact : (activeMapGet act id).isSome) (h : updateTask rm id inp = some rm') :
      RemoteStep act rm rm'

/-! ## Theorems -/

/-! ### Checksum (C9) -/

lemma canonicalString_eq (t : String) (d : Option String) (b : Bool) :
    canonicalString t d b =
      jsTrim t ++ ("|~|" ++ (renderDue d ++ ("|~|" ++ (if b then "true" else "false")))) := by
  simp [canonicalString, String.append_assoc]

lemma canonical_title_inj {t1 t2 : String} (d : Option String) (b : Bool)
    (h : jsTrim t1 ≠ jsTrim t2) : canonicalString t1 d b ≠ canonicalString t2 d b := by
  rw [canonicalString_eq, canonicalString_eq]
  intro he
  apply h
  apply String.ext
  have := congrArg String.data he
  simp only [String.data_append] at this
  exact List.append_cancel_right this

lemma canonical_due_inj (t : String) {d1 d2 : Option String} (b : Bool)
    (h : renderDue d1 ≠ renderDue d2) : canonicalString t d1 b ≠ canonicalString t d2 b := by
  rw [canonicalString_eq, canonicalString_eq]
  intro he
  apply h
  apply String.ext
  have := congrArg String.data he
  simp only [String.data_append] at this
  have h2 := List.append_cancel_left this
  have h3 := List.append_cancel_left h2
  exact List.append_cancel_right h3

lemma canonical_done_inj (t : String) (d : Option String) :
    canonicalString t d true ≠ canonicalString t d false := by
  intro he
  have := congrArg String.length he
  simp [canonicalString, String.length_append] at this
  exact absurd this (by decide)

/-- Claim C9 (amended): `generateReminderChecksum` is deterministic — any two
reminders agreeing on the trimmed title, the rendered due timestamp and the
completion flag hash identically — and changing exactly one of the three
fields always changes the canonical pre-hash string (for the due field:
whenever the rendered values differ); the 32-bit hash of that string,
however, can collide, so a changed field need not change the checksum
itself. -/
theorem checksum_determinism_and_sensitivity :
    (∀ r1 r2 : CReminder, jsTrim r1.title = jsTrim r2.title → r1.due = r2.due →
       r1.done = r2.done → generateReminderChecksum r1 = generateReminderChecksum r2) ∧
    (∀ (t1 t2 : String) (d : Option String) (b : Bool), jsTrim t1 ≠ jsTrim t2 →
       canonicalString t1 d b ≠ canonicalString t2 d b) ∧
    (∀ (t : String) (d1 d2 : Option String) (b : Bool), renderDue d1 ≠ renderDue d2 →
       canonicalString t d1 b ≠ canonicalString t d2 b) ∧
    (∀ (t : String) (d : Option String),
       canonicalString t d true ≠ canonicalString t d false) := by
  refine ⟨?_, ?_, ?_, ?_⟩
  · intro r1 r2 ht hd hb
    simp [generateReminderChecksum, canonicalString, ht, hd, hb]
  · intro t1 t2 d b h
    exact canonical_title_inj d b h
  · intro t d1 d2 b h
    exact canonical_due_inj t b h
  · intro t d
    exact canonical_done_inj t d

/-- Claim C9, counterexample to the claim as stated: the reminders titled
`"Aa"` and `"BB"` (all other fields equal) differ in exactly the title field
yet produce the same checksum, because the underlying 31-multiplier 32-bit
hash collides on them. -/
theorem checksum_collision_counterexample :
    generateReminderChecksum ⟨"Aa", none, false⟩ =
        generateReminderChecksum ⟨"BB", none, false⟩ ∧
      jsTrim "Aa" ≠ jsTrim "BB" := by
  constructor
  · rfl
  · decide

/-- Witness for `checksum_determinism_and_sensitivity` at concrete inputs. -/
theorem checksum_determinism_witness :
    generateReminderChecksum ⟨" Buy milk ", none, false⟩ =
        generateReminderChecksum ⟨"Buy milk", none, false⟩ ∧
      canonicalString "a" none true ≠ canonicalString "b" none true := by
  constructor
  · exact checksum_determinism_and_sensitivity.1 ⟨" Buy milk ", none, false⟩
      ⟨"Buy milk", none, false⟩ (by decide) rfl rfl
  · exact checksum_determinism_and_sensitivity.2.1 "a" "b" none true (by decide)

/-! ### Retry/refresh execution wrapper (C5, C6, C7) -/

lemma getElem?_append_singleton {α : Type} (l : List α) (a : α) (p : Nat) :
    (l ++ [a])[p]? = if p < l.length then l[p]? else if p = l.length then some a else none := by
  rw [List.getElem?_append]
  rcases Nat.lt_trichotomy p l.length with h | h | h
  · simp [h]
  · subst h
    simp
  · rw [if_neg (by omega), if_neg (by omega), if_neg (by omega)]
    exact List.getElem?_eq_none (by simp; omega)

/-- The invariant proof behind the backoff contract: whatever state the loop
is in, if the accumulated trace satisfies `waitSpec` position-wise and the
current delay is the exponential of the trace length, every wait the loop
ever emits satisfies `waitSpec`. -/
lemma retryGo_waitSpec (outcomes : Nat → AttemptOutcome) (maxRetries : Nat) :
    ∀ (fuel i delay : Nat) (lastError : Option JsErr) (acc : List WaitEvent),
      delay = 1000 * 2 ^ acc.length →
      (∀ p ev, acc.reverse[p]? = some ev → waitSpec p ev) →
      ∀ p ev, (retryGo outcomes maxRetries fuel i delay lastError acc).2[p]? = some ev →
        waitSpec p ev := by
  intro fuel
  induction fuel with
  | zero =>
    intro i delay lastError acc _hd hacc p ev h
    exact hacc p ev h
  | succ f ih =>
    intro i delay lastError acc hd hacc p ev h
    have hstep : ∀ ev0 : WaitEvent, waitSpec acc.length ev0 →
        (∀ p ev, (ev0 :: acc).reverse[p]? = some ev → waitSpec p ev) := by
      intro ev0 hev0 p ev hp
      rw [List.reverse_cons, getElem?_append_singleton] at hp
      simp only [List.length_reverse] at hp
      rcases Nat.lt_trichotomy p acc.length with hlt | heq | hgt
      · rw [if_pos hlt] at hp
        exact hacc p ev hp
      · rw [if_neg (by omega), if_pos heq] at hp
        cases hp
        rw [heq]
        exact hev0
      · rw [if_neg (by omega), if_neg (by omega)] at hp
        cases hp
    have hlen : ∀ ev0 : WaitEvent, delay * 2 = 1000 * 2 ^ (ev0 :: acc).length := by
      intro ev0
      rw [hd]
      simp [List.length_cons, pow_succ]
      ring
    rcases houtcome : outcomes i with _ | retryAfter | refreshResult | ⟨status, statusText, body⟩ | e
    · simp only [retryGo, houtcome] at h
      exact hacc p ev h
    · simp only [retryGo, houtcome] at h
      rcases retryAfter with _ | s
      · exact ih (i + 1) (delay * 2) lastError (WaitEvent.rateBackoff delay :: acc)
          (hlen _) (hstep _ (by simp [waitSpec, hd])) p ev h
      · exact ih (i + 1) (delay * 2) lastError (WaitEvent.rateHeader s (s * 1000) :: acc)
          (hlen _) (hstep _ (by simp [waitSpec])) p ev h
    · rcases refreshResult with e | u
      · simp only [retryGo, houtcome] at h
        by_cases hi : i < maxRetries
        · rw [if_pos hi] at h
          exact ih (i + 1) (delay * 2) (some e) (WaitEvent.errBackoff delay :: acc)
            (hlen _) (hstep _ (by simp [waitSpec, hd])) p ev h
        · rw [if_neg hi] at h
          exact ih (i + 1) delay (some e) acc hd hacc p ev h
      · simp only [retryGo, houtcome] at h
        exact ih (i + 1) delay lastError acc hd hacc p ev h
    · simp only [retryGo, houtcome] at h
      by_cases hi : i < maxRetries
      · rw [if_pos hi] at h
        exact ih (i + 1) (delay * 2) (some (apiErrMsg status statusText body))
          (WaitEvent.errBackoff delay :: acc) (hlen _) (hstep _ (by simp [waitSpec, hd])) p ev h
      · rw [if_neg hi] at h
        exact ih (i + 1) delay (some (apiErrMsg status statusText body)) acc hd hacc p ev h
    · simp only [retryGo, houtcome] at h
      by_cases hi : i < maxRetries
      · rw [if_pos hi] at h
        exact ih (i + 1) (delay * 2) (some e) (WaitEvent.errBackoff delay :: acc)
          (hlen _) (hstep _ (by simp [waitSpec, hd])) p ev h
      · rw [if_neg hi] at h
        exact ih (i + 1) delay (some e) acc hd hacc p ev h

/-- Claim C7: every wait `executeWithRetry` performs before a retry obeys the
backoff contract — a 429 wait with a numeric `Retry-After: s` header waits
exactly `s` seconds (so `Retry-After: 5` waits 5000 ms ≥ 5 s), and every
header-less wait equals the exponential delay that starts at 1000 ms and has
doubled once per earlier wait of the run. -/
theorem backoff_contract (outcomes : Nat → AttemptOutcome) (maxRetries : Nat)
    (p : Nat) (ev : WaitEvent)
    (h : (executeWithRetry outcomes maxRetries).2[p]? = some ev) : waitSpec p ev := by
  exact retryGo_waitSpec outcomes maxRetries (maxRetries + 1) 0 1000 none []
    (by norm_num) (by intro q ev' hq; simp at hq) p ev h

/-- Witness for `backoff_contract`: a run whose first attempt hits a 429 with
`Retry-After: 5` waits 5000 ms, and the third header-less 429 wait of an
all-429 run is 1000·2² = 4000 ms. -/
theorem backoff_contract_witness :
    waitSpec 0 (WaitEvent.rateHeader 5 5000) ∧ waitSpec 2 (WaitEvent.rateBackoff 4000) := by
  constructor
  · exact backoff_contract (fun _ => .rate (some 5)) 3 0 (WaitEvent.rateHeader 5 5000) rfl
  · exact backoff_contract (fun _ => .rate none) 3 2 (WaitEvent.rateBackoff 4000) rfl

lemma foldl_replace {α : Type} :
    ∀ (l : List α) (init : Option α),
      l.foldl (fun _ e => some e) init =
        match l.getLast? with
        | some e => some e
        | none => init := by
  intro l
  induction l with
  | nil => intro init; rfl
  | cons a t ih =>
    intro init
    rw [List.foldl_cons, ih (some a)]
    cases t with
    | nil => simp
    | cons b u =>
      rw [List.getLast?_cons_cons]
      cases h2 : (b :: u).getLast? with
      | none => simp at h2
      | some e => rfl

/-- The exhaustion lemma: if no attempt in the remaining window returns a
2xx, the loop ends by throwing whatever `lastError` holds after folding in
the errors the remaining attempts record. -/
lemma retryGo_exhaust (outcomes : Nat → AttemptOutcome) (maxRetries : Nat) :
    ∀ (fuel i delay : Nat) (lastError : Option JsErr) (acc : List WaitEvent),
      (∀ j, i ≤ j → j < i + fuel → isSuccess (outcomes j) = false) →
      (retryGo outcomes maxRetries fuel i delay lastError acc).1 =
        throwLast ((recordedErrors outcomes i fuel).foldl (fun _ e => some e) lastError) := by
  intro fuel
  induction fuel with
  | zero =>
    intro i delay lastError acc _h
    simp [retryGo, recordedErrors, List.range']
  | succ f ih =>
    intro i delay lastError acc h
    have hrange : recordedErrors outcomes i (f + 1) =
        match errOfOutcome (outcomes i) with
        | some e => e :: recordedErrors outcomes (i + 1) f
        | none => recordedErrors outcomes (i + 1) f := by
      rw [recordedErrors, List.range'_succ i f 1, List.filterMap_cons]
      rcases errOfOutcome (outcomes i) with _ | e <;> simp [recordedErrors]
    have hnext : ∀ j, i + 1 ≤ j → j < i + 1 + f → isSuccess (outcomes j) = false := by
      intro j h1 h2
      exact h j (by omega) (by omega)
    rw [hrange]
    rcases houtcome : outcomes i with _ | retryAfter | refreshResult | ⟨status, statusText, body⟩ | e
    · exact absurd (h i (le_refl i) (by omega)) (by simp [houtcome, isSuccess])
    · simp only [retryGo, houtcome, errOfOutcome, List.foldl_cons]
      exact ih (i + 1) (delay * 2) lastError _ hnext
    · rcases refreshResult with e | u
      · simp only [retryGo, houtcome, errOfOutcome, List.foldl_cons]
        by_cases hi : i < maxRetries
        · rw [if_pos hi]
          exact ih (i + 1) (delay * 2) (some e) _ hnext
        · rw [if_neg hi]
          exact ih (i + 1) delay (some e) _ hnext
      · simp only [retryGo, houtcome, errOfOutcome, List.foldl_cons]
        exact ih (i + 1) delay lastError acc hnext
    · simp only [retryGo, houtcome, errOfOutcome, List.foldl_cons]
      by_cases hi : i < maxRetries
      · rw [if_pos hi]
        exact ih (i + 1) (delay * 2) _ _ hnext
      · rw [if_neg hi]
        exact ih (i + 1) delay _ _ hnext
    · simp only [retryGo, houtcome, errOfOutcome, List.foldl_cons]
      by_cases hi : i < maxRetries
      · rw [if_pos hi]
        exact ih (i + 1) (delay * 2) _ _ hnext
      · rw [if_neg hi]
        exact ih (i + 1) delay _ _ hnext

/-- Claim C5 (amended): when `executeWithRetry` exhausts all `maxRetries + 1`
attempts without any 2xx response, it throws the LAST error recorded during
the run, unchanged, provided at least one attempt recorded an error; a run
whose attempts all ended in retried conditions (429, or 401 with a
successful refresh) records no error at all and ends in `throw lastError`
with `lastError` still `null`. -/
theorem exhausted_throws_last_recorded_error (outcomes : Nat → AttemptOutcome)
    (maxRetries : Nat) (h : ∀ j, j ≤ maxRetries → isSuccess (outcomes j) = false) :
    (executeWithRetry outcomes maxRetries).1 =
      match (recordedErrors outcomes 0 (maxRetries + 1)).getLast? with
      | some e => RetryResult.errThrown e
      | none => RetryResult.nullThrown := by
  rw [executeWithRetry,
    retryGo_exhaust outcomes maxRetries (maxRetries + 1) 0 1000 none []
      (fun j h1 h2 => h j (by omega)),
    foldl_replace]
  cases (recordedErrors outcomes 0 (maxRetries + 1)).getLast? <;> rfl

/-- Witness for `exhausted_throws_last_recorded_error`: a run of one HTTP 500
followed by three 429s throws the API error of attempt 0 — the last (and
only) recorded error — unchanged. -/
theorem exhausted_throws_last_witness :
    (executeWithRetry
        (fun i => if i = 0 then .httpError 500 "Internal Server Error" "boom"
                  else .rate none) 3).1 =
      RetryResult.errThrown (apiErrMsg 500 "Internal Server Error" "boom") := by
  have h := exhausted_throws_last_recorded_error
    (fun i => if i = 0 then .httpError 500 "Internal Server Error" "boom" else .rate none) 3
    (by decide)
  exact h.trans (by rfl)

/-- Claim C5, counterexample to the claim as stated: a run whose four
attempts are all retried 429s exhausts the attempt cap having encountered no
error at all, and `throw lastError` then throws the initial `null` — not
"the last error it encountered". -/
theorem all_rate_throws_null_counterexample :
    (executeWithRetry (fun _ => .rate none) 3).1 = RetryResult.nullThrown ∧
      recordedErrors (fun _ => .rate none) 0 4 = [] ∧
      ∀ e, (executeWithRetry (fun _ => .rate none) 3).1 ≠ RetryResult.errThrown e := by
  refine ⟨rfl, rfl, ?_⟩
  intro e hc
  rw [show (executeWithRetry (fun _ => .rate none) 3).1 = RetryResult.nullThrown from rfl] at hc
  exact RetryResult.noConfusion hc

/-- Claim C6 (amended): a 401 triggers the token refresh; when the refresh
succeeds the loop immediately retries the wrapped call with nothing else
changed; when the refresh fails, its error does NOT propagate at once — it is
recorded as the last error, the loop backs off and retries (while attempts
remain), and the refresh error only escapes `executeWithRetry` if the run
exhausts its attempts with that error still the last one recorded, as in a
run whose every attempt is a 401 with a failing refresh. -/
theorem unauthorized_refresh_behavior (outcomes : Nat → AttemptOutcome) (maxRetries : Nat) :
    (∀ (fuel i delay : Nat) (le : Option JsErr) (acc : List WaitEvent),
       outcomes i = .unauthorized (.ok ()) →
       retryGo outcomes maxRetries (fuel + 1) i delay le acc =
         retryGo outcomes maxRetries fuel (i + 1) delay le acc) ∧
    (∀ (fuel i delay : Nat) (le : Option JsErr) (acc : List WaitEvent) (e : JsErr),
       outcomes i = .unauthorized (.error e) → i < maxRetries →
       retryGo outcomes maxRetries (fuel + 1) i delay le acc =
         retryGo outcomes maxRetries fuel (i + 1) (delay * 2) (some e)
           (WaitEvent.errBackoff delay :: acc)) ∧
    (∀ e : JsErr, (∀ j, j ≤ maxRetries → outcomes j = .unauthorized (.error e)) →
       (executeWithRetry outcomes maxRetries).1 = RetryResult.errThrown e) := by
  refine ⟨?_, ?_, ?_⟩
  · intro fuel i delay le acc hout
    rw [retryGo, hout]
  · intro fuel i delay le acc e hout hi
    rw [retryGo, hout]
    simp only [if_pos hi]
  · intro e hall
    have hnosucc : ∀ j, j ≤ maxRetries → isSuccess (outcomes j) = false := by
      intro j hj
      rw [hall j hj]
      rfl
    rw [exhausted_throws_last_recorded_error outcomes maxRetries hnosucc]
    have hconst : ∀ (len i0 : Nat), (∀ j, i0 ≤ j → j < i0 + len →
        outcomes j = .unauthorized (.error e)) →
        recordedErrors outcomes i0 len = List.replicate len e := by
      intro len
      induction len with
      | zero => intro i0 _; simp [recordedErrors, List.range']
      | succ n ihn =>
        intro i0 hj
        have htail := ihn (i0 + 1) (fun j h1 h2 => hj j (by omega) (by omega))
        rw [recordedErrors] at htail
        rw [recordedErrors, List.range'_succ i0 n 1, List.filterMap_cons,
          hj i0 (le_refl i0) (by omega)]
        simp only [errOfOutcome, List.replicate_succ] at htail ⊢
        rw [htail]
    rw [hconst (maxRetries + 1) 0 (fun j _ h2 => hall j (by omega))]
    simp [List.getLast?_replicate]

/-- Witness for `unauthorized_refresh_behavior`: exhausting all attempts on a
permanently failing refresh propagates the refresh error. -/
theorem unauthorized_refresh_witness :
    (executeWithRetry (fun _ => .unauthorized (.error "bad refresh")) 3).1 =
      RetryResult.errThrown "bad refresh" :=
  (unauthorized_refresh_behavior (fun _ => .unauthorized (.error "bad refresh")) 3).2.2
    "bad refresh" (by intro j _; rfl)

/-- Claim C6, counterexample to the claim as stated: a 401 whose refresh
fails, followed by a successful attempt, ends with the wrapped call's result
— the refresh error never propagates out of `executeWithRetry`. -/
theorem refresh_error_swallowed_counterexample :
    (executeWithRetry
        (fun i => if i = 0 then .unauthorized (.error "refresh failed") else .success) 3).1 =
        RetryResult.ok ∧
      ∀ e, (executeWithRetry
        (fun i => if i = 0 then .unauthorized (.error "refresh failed") else .success) 3).1 ≠
          RetryResult.errThrown e := by
  refine ⟨rfl, ?_⟩
  intro e hc
  rw [show (executeWithRetry
      (fun i => if i = 0 then .unauthorized (.error "refresh failed") else .success) 3).1 =
      RetryResult.ok from rfl] at hc
  exact RetryResult.noConfusion hc

/-! ### Token lifecycle (C3, C10) -/

/-- Claim C3: during a refresh, an `invalid_grant` error response clears the
whole token store (in-memory and persisted) and raises the error; every other
failure — an error response with a different (or missing) error code, or an
unparsable error body — raises the error and leaves the token store exactly
as it was. -/
theorem refresh_invalid_grant_clears_others_atomic
    (st : TokenStore) (now : Int) (td : TokenData)
    (hm : st.memory = some td) (hr : td.refresh_token ≠ "") :
    (∀ status statusText,
       refreshToken st now (.errJson status statusText (some "invalid_grant")) =
         (⟨none, none, none, none⟩,
          .error "Token refresh failed: invalid_grant")) ∧
    (∀ status statusText err, err ≠ some "invalid_grant" →
       ∃ msg, refreshToken st now (.errJson status statusText err) = (st, .error msg)) ∧
    (∀ status statusText raw,
       ∃ msg, refreshToken st now (.errRaw status statusText raw) = (st, .error msg)) := by
  refine ⟨?_, ?_, ?_⟩
  · intro status statusText
    simp [refreshToken, hm, hr, clearTokenData, jsErrorCode]
  · intro status statusText err hne
    exact ⟨"Token refresh failed: " ++ jsErrorCode err, by simp [refreshToken, hm, hr, hne]⟩
  · intro status statusText raw
    exact ⟨"Token refresh failed: HTTP " ++ toString status ++ " " ++ statusText,
      by simp [refreshToken, hm, hr]⟩

/-- Witness for `refresh_invalid_grant_clears_others_atomic`. -/
theorem refresh_invalid_grant_witness :
    refreshToken ⟨some ⟨"at", "rt", 99⟩, some ⟨"at", "rt", 99⟩, none, none⟩ 0
        (.errJson 400 "Bad Request" (some "invalid_grant")) =
      (⟨none, none, none, none⟩, .error "Token refresh failed: invalid_grant") :=
  (refresh_invalid_grant_clears_others_atomic
      ⟨some ⟨"at", "rt", 99⟩, some ⟨"at", "rt", 99⟩, none, none⟩ 0 ⟨"at", "rt", 99⟩
      rfl (by decide)).1 400 "Bad Request"

/-- Claim C10 (amended): when `initialize()` finds a persisted, expiring
token record and the refresh attempt fails with anything other than a parsed
`invalid_grant` error response, only the in-memory token data is discarded:
the persisted record is unchanged, and a subsequent `hasRefreshToken()`
reloads it and returns true (its refresh token being non-empty).  An
`invalid_grant` failure, by contrast, also clears the persisted record. -/
theorem initialize_nonfatal_failure_keeps_persisted
    (st : TokenStore) (now : Int) (td : TokenData)
    (hp : st.persisted = some td) (hr : td.refresh_token ≠ "")
    (hexp : isTokenExpired td now = true) :
    (∀ status statusText err, err ≠ some "invalid_grant" →
       (initializeService st now (.errJson status statusText err)).memory = none ∧
       (initializeService st now (.errJson status statusText err)).persisted = st.persisted ∧
       (hasRefreshToken (initializeService st now (.errJson status statusText err))).2 = true) ∧
    (∀ status statusText raw,
       (initializeService st now (.errRaw status statusText raw)).memory = none ∧
       (initializeService st now (.errRaw status statusText raw)).persisted = st.persisted ∧
       (hasRefreshToken (initializeService st now (.errRaw status statusText raw))).2 = true) := by
  constructor
  · intro status statusText err hne
    simp [initializeService, loadTokenData, refreshToken, hp, hr, hexp, hne,
      hasRefreshToken]
  · intro status statusText raw
    simp [initializeService, loadTokenData, refreshToken, hp, hr, hexp,
      hasRefreshToken]

/-- Witness for `initialize_nonfatal_failure_keeps_persisted`. -/
theorem initialize_nonfatal_failure_witness :
    (initializeService ⟨none, some ⟨"at", "rt", 0⟩, none, none⟩ 0
          (.errRaw 500 "Internal Server Error" "oops")).persisted =
        some ⟨"at", "rt", 0⟩ ∧
      (hasRefreshToken (initializeService ⟨none, some ⟨"at", "rt", 0⟩, none, none⟩ 0
          (.errRaw 500 "Internal Server Error" "oops"))).2 = true := by
  have h := (initialize_nonfatal_failure_keeps_persisted
      ⟨none, some ⟨"at", "rt", 0⟩, none, none⟩ 0 ⟨"at", "rt", 0⟩
      rfl (by decide) (by decide)).2 500 "Internal Server Error" "oops"
  exact ⟨h.2.1, h.2.2⟩

/-- Claim C10, counterexample to the claim as stated: a refresh failure
caused by an `invalid_grant` error response during `initialize()` does not
leave the persisted record unchanged — `refreshToken` clears the whole store
before throwing — so the subsequent `hasRefreshToken()` returns false. -/
theorem initialize_invalid_grant_counterexample :
    (initializeService ⟨none, some ⟨"at", "rt", 0⟩, none, none⟩ 0
          (.errJson 400 "Bad Request" (some "invalid_grant"))).persisted = none ∧
      (hasRefreshToken (initializeService ⟨none, some ⟨"at", "rt", 0⟩, none, none⟩ 0
          (.errJson 400 "Bad Request" (some "invalid_grant")))).2 = false := by
  decide

/-! ### List resolution at the start of a pass (C4) -/

/-- Claim C4 (amended): at the start of every pass the engine resolves the
target list by the configured name, and when no list with that name exists
the pass aborts with an error notice, leaving every piece of state unchanged
— in particular it does not create the missing list. -/
theorem sync_missing_list_aborts (s : SyncState)
    (h : s.lists.find? (fun l => l.title = s.listName) = none) :
    syncGoogleTasks s = .notRun s := by
  unfold syncGoogleTasks
  rcases he : s.enabled with _ | _ <;> rcases ha : s.authed with _ | _ <;> simp [h]

/-- Witness for `sync_missing_list_aborts`. -/
theorem sync_missing_list_witness :
    syncGoogleTasks ⟨true, true, "Obsidian Reminders", [⟨4, "Chores"⟩], ⟨[], 0⟩, []⟩ =
      .notRun ⟨true, true, "Obsidian Reminders", [⟨4, "Chores"⟩], ⟨[], 0⟩, []⟩ :=
  sync_missing_list_aborts _ (by decide)

/-- Claim C4, counterexample to the claim as stated: with the feature
enabled, an authenticated service and no list of the configured name, the
pass does not create the list and proceed — it performs nothing (the list
collection in particular still has no list of that name afterwards). -/
theorem sync_missing_list_counterexample :
    syncGoogleTasks ⟨true, true, "Obsidian Reminders", [], ⟨[], 0⟩, []⟩ =
        .notRun ⟨true, true, "Obsidian Reminders", [], ⟨[], 0⟩, []⟩ ∧
      ∀ (s' : SyncState) (c : Counts),
        syncGoogleTasks ⟨true, true, "Obsidian Reminders", [], ⟨[], 0⟩, []⟩ ≠ .ran s' c := by
  refine ⟨by decide, ?_⟩
  intro s' c hcontra
  rw [show syncGoogleTasks ⟨true, true, "Obsidian Reminders", [], ⟨[], 0⟩, []⟩ =
      .notRun ⟨true, true, "Obsidian Reminders", [], ⟨[], 0⟩, []⟩ by decide] at hcontra
  exact SyncOutcome.noConfusion hcontra

/-! ### Metadata codec (C8) -/

lemma matchLit_of_append (p r : List Char) : matchLit p (p ++ r) = some r := by
  induction p with
  | nil => rfl
  | cons c cs ih => simp [matchLit, ih]

lemma matchLit_some_imp {p l r : List Char} (h : matchLit p l = some r) : l = p ++ r := by
  induction p generalizing l with
  | nil =>
    cases h
    rfl
  | cons c cs ih =>
    cases l with
    | nil => exact absurd h (by simp [matchLit])
    | cons a as =>
      rw [matchLit] at h
      by_cases hac : a = c
      · rw [if_pos hac] at h
        rw [List.cons_append, hac, ih h]
      · rw [if_neg hac] at h
        cases h

lemma matchLit_append_some {p l r : List Char} (h : matchLit p l = some r) (t : List Char) :
    matchLit p (l ++ t) = some (r ++ t) := by
  rw [matchLit_some_imp h, List.append_assoc, matchLit_of_append]

lemma matchLit_append_space (p : List Char) (hsp : ' ' ∉ p) :
    ∀ (y rest : List Char), ¬ (p <+: y) → matchLit p (y ++ ' ' :: rest) = none := by
  induction p with
  | nil => intro y rest h; exact absurd List.nil_prefix h
  | cons q ps ih =>
    intro y rest h
    cases y with
    | nil =>
      rw [List.nil_append, matchLit,
        if_neg (fun hc : ' ' = q => hsp (by rw [hc]; exact List.mem_cons_self q ps))]
    | cons d ys =>
      rw [List.cons_append, matchLit]
      by_cases hdq : d = q
      · rw [if_pos hdq]
        exact ih (fun hm => hsp (List.mem_cons_of_mem q hm)) ys rest
          (fun hp => h (List.cons_prefix_cons.mpr ⟨hdq.symm, hp⟩))
      · rw [if_neg hdq]

lemma gtaskOpen_eq (l : List Char) :
    gtaskOpen l =
      match matchLit "<!--".data l with
      | none => false
      | some r1 => (matchLit "gtask:".data (r1.dropWhile isJsSpace)).isSome := rfl

lemma gtaskAt_none_of_noOpen {l : List Char} (h : gtaskOpen l = false) :
    gtaskAt l = none := by
  rw [gtaskAt]
  cases hm : matchLit "<!--".data l with
  | none => rfl
  | some r1 =>
    dsimp only
    cases hg : matchLit "gtask:".data (r1.dropWhile isJsSpace) with
    | none => rfl
    | some r3 =>
      exfalso
      have htrue : gtaskOpen l = true := by
        rw [gtaskOpen_eq, hm]
        dsimp only
        rw [hg]
        rfl
      rw [h] at htrue
      cases htrue

/-- The gtask opener keeps matching when text is appended on the right. -/
lemma gtaskOpen_true_parts {l : List Char} (h : gtaskOpen l = true) :
    ∃ r1, matchLit "<!--".data l = some r1 ∧
      ∃ r2, matchLit "gtask:".data (r1.dropWhile isJsSpace) = some r2 := by
  by_cases hm0 : (matchLit "<!--".data l).isSome = true
  case neg =>
    exfalso
    have hm : matchLit "<!--".data l = none := by
      cases hmm : matchLit "<!--".data l with
      | none => rfl
      | some r => rw [hmm] at hm0; exact absurd rfl hm0
    have hfalse : gtaskOpen l = false := by
      rw [gtaskOpen_eq, hm]
    rw [h] at hfalse
    cases hfalse
  case pos =>
    obtain ⟨r1, hm⟩ := Option.isSome_iff_exists.mp hm0
    refine ⟨r1, hm, ?_⟩
    by_cases hg0 : (matchLit "gtask:".data (r1.dropWhile isJsSpace)).isSome = true
    · exact Option.isSome_iff_exists.mp hg0
    · exfalso
      have hg : matchLit "gtask:".data (r1.dropWhile isJsSpace) = none := by
        cases hgg : matchLit "gtask:".data (r1.dropWhile isJsSpace) with
        | none => rfl
        | some r => rw [hgg] at hg0; exact absurd rfl hg0
      have hfalse : gtaskOpen l = false := by
        rw [gtaskOpen_eq, hm]
        dsimp only
        rw [hg]
        rfl
      rw [h] at hfalse
      cases hfalse

lemma gtaskOpen_mono {s : List Char} (h : gtaskOpen s = true) (t : List Char) :
    gtaskOpen (s ++ t) = true := by
  obtain ⟨r1, hm, r2, hg⟩ := gtaskOpen_true_parts h
  rw [gtaskOpen_eq, matchLit_append_some hm t]
  dsimp only
  cases hdw : r1.dropWhile isJsSpace with
  | nil =>
    rw [hdw] at hg
    rw [show matchLit "gtask:".data ([] : List Char) = none from rfl] at hg
    cases hg
  | cons d r1' =>
    rw [hdw] at hg
    rw [List.dropWhile_append, hdw, if_neg (by simp), matchLit_append_some hg t]
    rfl

lemma noOpen_tail {c : Char} {cs : List Char}
    (h : ∀ s ∈ (c :: cs).tails, gtaskOpen s = false) :
    ∀ s ∈ cs.tails, gtaskOpen s = false :=
  fun s hs => h s ((List.mem_tails s (c :: cs)).mpr
    (((List.mem_tails s cs).mp hs).trans (List.suffix_cons c cs)))

lemma noOpen_self {l : List Char} (h : ∀ s ∈ l.tails, gtaskOpen s = false) :
    gtaskOpen l = false :=
  h l ((List.mem_tails l l).mpr List.suffix_rfl)

lemma stripAllF_id_of_noOpen :
    ∀ (f : Nat) (l : List Char), (∀ s ∈ l.tails, gtaskOpen s = false) → stripAllF f l = l := by
  intro f
  induction f with
  | zero => intro l _; rfl
  | succ g ih =>
    intro l hno
    cases l with
    | nil => rfl
    | cons c cs =>
      rw [stripAllF, gtaskAt_none_of_noOpen (noOpen_self hno), ih cs (noOpen_tail hno)]

lemma stripAll_id_of_noOpen {l : List Char} (h : ∀ s ∈ l.tails, gtaskOpen s = false) :
    stripAll l = l :=
  stripAllF_id_of_noOpen l.length l h

lemma jsTrimEndList_front (l : List Char) : jsTrimEndList l <+: l := by
  rw [jsTrimEndList]
  have h := List.dropWhile_suffix (l := l.reverse) isJsSpace
  have := List.reverse_prefix.mpr h
  simpa using this

/-- A gtask-opener-free line stays opener-free when truncated on the right:
an opener match inside the truncation would extend to one inside the full
line. -/
lemma noOpen_of_front {l₁ l₂ : List Char} (hp : l₁ <+: l₂)
    (h : ∀ s ∈ l₂.tails, gtaskOpen s = false) :
    ∀ s ∈ l₁.tails, gtaskOpen s = false := by
  intro s hs
  obtain ⟨t, rfl⟩ := hp
  obtain ⟨u, rfl⟩ := (List.mem_tails s l₁).mp hs
  cases hop : gtaskOpen s with
  | false => rfl
  | true =>
    have h2 := gtaskOpen_mono hop t
    have hmem : s ++ t ∈ ((u ++ s) ++ t).tails :=
      (List.mem_tails (s ++ t) ((u ++ s) ++ t)).mpr ⟨u, by simp⟩
    rw [h (s ++ t) hmem] at h2
    cases h2

lemma findCapture_none_of_noOpen :
    ∀ {l : List Char}, (∀ s ∈ l.tails, gtaskOpen s = false) → findCapture l = none := by
  intro l
  induction l with
  | nil => intro _; rfl
  | cons c cs ih =>
    intro hno
    rw [findCapture, gtaskAt_none_of_noOpen (noOpen_self hno)]
    exact ih (noOpen_tail hno)

lemma extract_none_of_noOpen {line : String} (h : noGtaskOpen line) :
    extractGoogleTaskMetadata line = none := by
  rw [extractGoogleTaskMetadata, findCapture_none_of_noOpen h]

lemma escChar_safe {c : Char} (h : safeMetaChar c) : escChar c = [c] := by
  obtain ⟨hws, hq, hb, hctrl⟩ := h
  have hne : ∀ d : Char, d.toNat < 0x20 → c ≠ d := by
    intro d hdlt hcd
    rw [hcd] at hctrl
    omega
  rw [escChar, if_neg hq, if_neg hb, if_neg (hne _ (by decide)), if_neg (hne _ (by decide)),
    if_neg (hne _ (by decide)), if_neg (hne _ (by decide)), if_neg (hne _ (by decide)),
    if_neg (by omega)]

lemma flatMap_escChar_id :
    ∀ l : List Char, (∀ c ∈ l, safeMetaChar c) → l.flatMap escChar = l := by
  intro l
  induction l with
  | nil => intro _; rfl
  | cons c cs ih =>
    intro h
    rw [List.flatMap_cons, escChar_safe (h c (by simp)), ih (fun x hx => h x (by simp [hx])),
      List.singleton_append]

lemma jsonQuote_safe {s : String} (h : safeMetaStr s) : jsonQuote s = '"' :: s.data ++ ['"'] := by
  rw [jsonQuote, flatMap_escChar_id s.data h]

lemma block_safe (m : GoogleTaskMetadata) (hid : safeMetaStr m.id) (hck : safeMetaStr m.checksum) :
    ∀ c ∈ stringifyMetadata m, isJsSpace c = false := by
  rw [stringifyMetadata, jsonQuote_safe hid, jsonQuote_safe hck]
  refine List.forall_mem_cons.mpr ⟨by decide, ?_⟩
  refine List.forall_mem_append.mpr ⟨?_, by decide⟩
  refine List.forall_mem_append.mpr ⟨?_, ?_⟩
  · refine List.forall_mem_append.mpr ⟨?_, by decide⟩
    refine List.forall_mem_append.mpr ⟨by decide, ?_⟩
    refine List.forall_mem_cons.mpr ⟨by decide, ?_⟩
    refine List.forall_mem_append.mpr ⟨?_, by decide⟩
    intro x hx
    exact (hid x hx).1
  · refine List.forall_mem_cons.mpr ⟨by decide, ?_⟩
    refine List.forall_mem_append.mpr ⟨?_, by decide⟩
    intro x hx
    exact (hck x hx).1

/-- Splitting a `-->` occurrence in `x ++ y`: it lies inside `x`, inside `y`,
or straddles the junction one of the two possible ways. -/
lemma close_split {y : List Char} :
    ∀ {x : List Char}, ('-' :: '-' :: '>' :: []) <:+: x ++ y →
      (('-' :: '-' :: '>' :: []) <:+: x) ∨ (('-' :: '-' :: '>' :: []) <:+: y) ∨
        ((('-' :: []) <:+ x) ∧ (('-' :: '>' :: []) <+: y)) ∨
        ((('-' :: '-' :: []) <:+ x) ∧ (('>' :: []) <+: y)) := by
  intro x
  induction x with
  | nil =>
    intro h
    rw [List.nil_append] at h
    exact Or.inr (Or.inl h)
  | cons c x' ih =>
    intro h
    rw [List.cons_append, List.infix_cons_iff] at h
    rcases h with hpre | htail
    · obtain ⟨hc, hpre2⟩ := List.cons_prefix_cons.mp hpre
      cases hc
      cases x' with
      | nil =>
        rw [List.nil_append] at hpre2
        exact Or.inr (Or.inr (Or.inl ⟨List.suffix_rfl, hpre2⟩))
      | cons d x'' =>
        rw [List.cons_append] at hpre2
        obtain ⟨hd, hpre3⟩ := List.cons_prefix_cons.mp hpre2
        cases hd
        cases x'' with
        | nil =>
          rw [List.nil_append] at hpre3
          exact Or.inr (Or.inr (Or.inr ⟨List.suffix_rfl, hpre3⟩))
        | cons e x''' =>
          rw [List.cons_append] at hpre3
          obtain ⟨he, _⟩ := List.cons_prefix_cons.mp hpre3
          cases he
          exact Or.inl ((List.cons_prefix_cons.mpr ⟨rfl,
            List.cons_prefix_cons.mpr ⟨rfl,
              List.cons_prefix_cons.mpr ⟨rfl, List.nil_prefix⟩⟩⟩).isInfix)
    · rcases ih htail with h1 | h1 | h1 | h1
      · exact Or.inl (List.infix_cons h1)
      · exact Or.inr (Or.inl h1)
      · exact Or.inr (Or.inr (Or.inl ⟨h1.1.trans (List.suffix_cons c x'), h1.2⟩))
      · exact Or.inr (Or.inr (Or.inr ⟨h1.1.trans (List.suffix_cons c x'), h1.2⟩))

/-- The serialized block contains no `-->`: its scaffolding is free of `-`
and `>`, the values are free of `-->` by hypothesis, and every junction is
guarded by a `\x22` or `\x7d` that cannot complete a straddling closer. -/
lemma stringify_noClose (m : GoogleTaskMetadata) (hid : safeMetaStr m.id)
    (hck : safeMetaStr m.checksum) (hidc : noCloseStr m.id) (hckc : noCloseStr m.checksum) :
    ¬ (('-' :: '-' :: '>' :: []) <:+: stringifyMetadata m) := by
  have hshape : stringifyMetadata m =
      ('\x7b' :: '"' :: 'i' :: 'd' :: '"' :: ':' :: '"' :: []) ++
        (m.id.data ++
          (('"' :: ',' :: '"' :: 'c' :: 'h' :: 'e' :: 'c' :: 'k' :: 's' :: 'u' :: 'm' ::
            '"' :: ':' :: '"' :: []) ++
            (m.checksum.data ++ ('"' :: '\x7d' :: [])))) := by
    rw [stringifyMetadata, jsonQuote_safe hid, jsonQuote_safe hck]
    simp
  intro hc
  rw [hshape] at hc
  rcases close_split hc with h1 | h1 | h1 | h1
  · exact absurd h1 (by decide)
  · rcases close_split h1 with h2 | h2 | h2 | h2
    · exact hidc h2
    · rcases close_split h2 with h3 | h3 | h3 | h3
      · exact absurd h3 (by decide)
      · rcases close_split h3 with h4 | h4 | h4 | h4
        · exact hckc h4
        · exact absurd h4 (by decide)
        · exact absurd h4.2 (by decide)
        · exact absurd h4.2 (by decide)
      · exact absurd h3.1 (by decide)
      · exact absurd h3.1 (by decide)
    · obtain ⟨t, ht⟩ := h2.2
      rw [List.cons_append] at ht
      simp at ht
    · obtain ⟨t, ht⟩ := h2.2
      rw [List.cons_append] at ht
      simp at ht
  · exact absurd h1.1 (by decide)
  · exact absurd h1.1 (by decide)

lemma lazyCap_append_close :
    ∀ block : List Char, (∀ c ∈ block, isJsSpace c = false) →
      ¬ (('-' :: '-' :: '>' :: []) <:+: block) →
      lazyCap (block ++ (' ' :: '-' :: '-' :: '>' :: [])) = some (block, []) := by
  intro block
  induction block with
  | nil =>
    intro _ _
    rfl
  | cons c bs ih =>
    intro hsafe hnc
    have hcws := hsafe c (by simp)
    have hclose : closeAt (c :: (bs ++ (' ' :: '-' :: '-' :: '>' :: []))) = none := by
      rw [closeAt, List.dropWhile_cons, if_neg (by rw [hcws]; simp), ← List.cons_append]
      exact matchLit_append_space "-->".data (by decide) (c :: bs) _
        (fun hp => hnc hp.isInfix)
    have hcn : ¬ (c = '\n') := by
      intro hh
      rw [hh] at hcws
      exact absurd hcws (by simp [isJsSpace])
    simp [List.cons_append, lazyCap, hclose, hcn,
      ih (fun x hx => hsafe x (by simp [hx])) (fun h => hnc (List.infix_cons h))]

lemma pStrF_safe :
    ∀ (s : List Char) (f : Nat) (rest : List Char), s.length < f →
      (∀ c ∈ s, safeMetaChar c) → pStrF f (s ++ '"' :: rest) = some (s, rest) := by
  intro s
  induction s with
  | nil =>
    intro f rest hf _
    match f, hf with
    | g + 1, _ => rfl
  | cons c cs ih =>
    intro f rest hf hsafe
    obtain ⟨hws, hq, hb, hctrl⟩ := hsafe c (by simp)
    have h20 : ¬ (c.toNat < 0x20) := by omega
    match f, hf with
    | g + 1, hf =>
      rw [List.cons_append, pStrF.eq_def]
      dsimp only
      rw [if_neg hq, if_neg hb, if_neg h20,
        ih g rest (by simp at hf ⊢; omega) (fun x hx => hsafe x (by simp [hx]))]
      rfl

lemma pStr_safe (s rest : List Char) (hsafe : ∀ c ∈ s, safeMetaChar c) :
    pStr (s ++ '"' :: rest) = some (s, rest) := by
  rw [pStr]
  exact pStrF_safe s _ rest (by simp) hsafe

lemma gtaskAt_cons_tail (c : Char) (ls rest : List Char)
    (hopen : gtaskOpen (c :: ls) = false) :
    gtaskAt ((c :: ls) ++ (' ' :: '<' :: '!' :: '-' :: '-' :: ' ' :: 'g' :: 't' :: 'a' ::
      's' :: 'k' :: ':' :: rest)) = none := by
  cases hm : matchLit "<!--".data (c :: ls) with
  | none =>
    have hnp : ¬ ("<!--".data <+: c :: ls) := by
      intro hp
      obtain ⟨r, hr⟩ := hp
      rw [← hr, matchLit_of_append] at hm
      cases hm
    rw [gtaskAt, matchLit_append_space "<!--".data (by decide) (c :: ls) _ hnp]
  | some r1 =>
    rw [gtaskAt, matchLit_append_some hm
      (' ' :: '<' :: '!' :: '-' :: '-' :: ' ' :: 'g' :: 't' :: 'a' :: 's' :: 'k' :: ':' :: rest)]
    dsimp only
    cases hdw : r1.dropWhile isJsSpace with
    | nil =>
      rw [List.dropWhile_append, hdw]
      rw [if_pos (by simp)]
      rw [List.dropWhile_cons, if_pos (by decide), List.dropWhile_cons, if_neg (by decide)]
      rw [show matchLit "gtask:".data ('<' :: '!' :: '-' :: '-' :: ' ' :: 'g' :: 't' :: 'a' ::
        's' :: 'k' :: ':' :: rest) = none from rfl]
    | cons d r1' =>
      rw [List.dropWhile_append, hdw]
      rw [if_neg (by simp)]
      cases hg : matchLit "gtask:".data (d :: r1') with
      | some r2 =>
        exfalso
        have htrue : gtaskOpen (c :: ls) = true := by
          rw [gtaskOpen_eq, hm]
          dsimp only
          rw [hdw, hg]
          rfl
        rw [hopen] at htrue
        cases htrue
      | none =>
        have hnp2 : ¬ ("gtask:".data <+: d :: r1') := by
          intro hp
          obtain ⟨r, hr⟩ := hp
          rw [← hr, matchLit_of_append] at hg
          cases hg
        rw [matchLit_append_space "gtask:".data (by decide) (d :: r1') _ hnp2]

lemma gtask_tail_eq (block : List Char) :
    " <!-- gtask:".data ++ (block ++ " -->".data) =
      ' ' :: ('<' :: '!' :: '-' :: '-' :: ' ' :: 'g' :: 't' :: 'a' :: 's' :: 'k' :: ':' ::
        (block ++ (' ' :: '-' :: '-' :: '>' :: []))) := rfl

lemma findCapture_append_gtask (block : List Char)
    (hsafe : ∀ c ∈ block, isJsSpace c = false)
    (hnc : ¬ (('-' :: '-' :: '>' :: []) <:+: block)) :
    ∀ l : List Char, (∀ s ∈ l.tails, gtaskOpen s = false) →
      findCapture (l ++ (" <!-- gtask:".data ++ (block ++ " -->".data))) = some block := by
  intro l
  induction l with
  | nil =>
    intro _
    rw [List.nil_append, gtask_tail_eq, findCapture]
    rw [show gtaskAt (' ' :: ('<' :: '!' :: '-' :: '-' :: ' ' :: 'g' :: 't' :: 'a' :: 's' ::
      'k' :: ':' :: (block ++ (' ' :: '-' :: '-' :: '>' :: [])))) = none from rfl]
    try dsimp only
    rw [findCapture]
    have hg2 : gtaskAt ('<' :: '!' :: '-' :: '-' :: ' ' :: 'g' :: 't' :: 'a' :: 's' :: 'k' ::
        ':' :: (block ++ (' ' :: '-' :: '-' :: '>' :: []))) = some (block, []) := by
      rw [gtaskAt]
      rw [show matchLit "<!--".data ('<' :: '!' :: '-' :: '-' :: ' ' :: 'g' :: 't' :: 'a' ::
        's' :: 'k' :: ':' :: (block ++ (' ' :: '-' :: '-' :: '>' :: []))) =
        some (' ' :: 'g' :: 't' :: 'a' :: 's' :: 'k' :: ':' ::
          (block ++ (' ' :: '-' :: '-' :: '>' :: []))) from rfl]
      try dsimp only
      rw [show List.dropWhile isJsSpace (' ' :: 'g' :: 't' :: 'a' :: 's' :: 'k' :: ':' ::
        (block ++ (' ' :: '-' :: '-' :: '>' :: []))) =
        'g' :: 't' :: 'a' :: 's' :: 'k' :: ':' ::
          (block ++ (' ' :: '-' :: '-' :: '>' :: [])) from rfl]
      rw [show matchLit "gtask:".data ('g' :: 't' :: 'a' :: 's' :: 'k' :: ':' ::
        (block ++ (' ' :: '-' :: '-' :: '>' :: []))) =
        some (block ++ (' ' :: '-' :: '-' :: '>' :: [])) from rfl]
      try dsimp only
      rw [lazyCap_append_close block hsafe hnc]
    rw [hg2]
  | cons c ls ih =>
    intro hno
    rw [gtask_tail_eq, List.cons_append, findCapture, ← List.cons_append,
      gtaskAt_cons_tail c ls _ (noOpen_self hno)]
    try dsimp only
    exact ih (noOpen_tail hno)


lemma pVal_str_value (g : Nat) (sl rest : List Char) (hs : ∀ c ∈ sl, safeMetaChar c) :
    pVal (g + 1) ('"' :: (sl ++ ('"' :: rest))) = some (JValue.str (String.mk sl), rest) := by
  have h0 : pVal (g + 1) ('"' :: (sl ++ ('"' :: rest))) =
      (pStr (sl ++ ('"' :: rest))).map (fun p => (JValue.str (String.mk p.1), p.2)) := rfl
  rw [h0, pStr_safe sl rest hs]
  rfl

lemma pMember_id_ck (g : Nat) (idl ckl : List Char)
    (hid : ∀ c ∈ idl, safeMetaChar c) (hck : ∀ c ∈ ckl, safeMetaChar c)
    (acc : List (String × JValue)) :
    pMember (g + 3)
      ('"' :: 'i' :: 'd' :: '"' :: ':' :: '"' ::
        (idl ++ ('"' :: ',' :: '"' :: 'c' :: 'h' :: 'e' :: 'c' :: 'k' :: 's' :: 'u' :: 'm' ::
          '"' :: ':' :: '"' :: (ckl ++ ('"' :: '\x7d' :: [])))))
      acc =
      some (JValue.obj (acc ++ [("id", JValue.str (String.mk idl)),
        ("checksum", JValue.str (String.mk ckl))]), []) := by
  have h1 : pMember (g + 3)
      ('"' :: 'i' :: 'd' :: '"' :: ':' :: '"' ::
        (idl ++ ('"' :: ',' :: '"' :: 'c' :: 'h' :: 'e' :: 'c' :: 'k' :: 's' :: 'u' :: 'm' ::
          '"' :: ':' :: '"' :: (ckl ++ ('"' :: '\x7d' :: [])))))
      acc =
      match pVal (g + 2)
        ('"' :: (idl ++ ('"' :: (',' :: '"' :: 'c' :: 'h' :: 'e' :: 'c' :: 'k' :: 's' :: 'u' ::
          'm' :: '"' :: ':' :: '"' :: (ckl ++ ('"' :: '\x7d' :: [])))))) with
      | none => none
      | some (v, r3) =>
        match skipWs r3 with
        | ',' :: r4 => pMember (g + 2) r4 (acc ++ [("id", v)])
        | '\x7d' :: r4 => some (JValue.obj (acc ++ [("id", v)]), r4)
        | _ => none := rfl
  rw [h1]
  have hv1 := pVal_str_value (g + 1) idl
    (',' :: '"' :: 'c' :: 'h' :: 'e' :: 'c' :: 'k' :: 's' :: 'u' :: 'm' :: '"' :: ':' :: '"' ::
      (ckl ++ ('"' :: '\x7d' :: []))) hid
  rw [show (g : Nat) + 1 + 1 = g + 2 from rfl] at hv1
  rw [hv1]
  change pMember (g + 2)
    ('"' :: 'c' :: 'h' :: 'e' :: 'c' :: 'k' :: 's' :: 'u' :: 'm' :: '"' :: ':' :: '"' ::
      (ckl ++ ('"' :: '\x7d' :: [])))
    (acc ++ [("id", JValue.str (String.mk idl))]) = _
  have h2 : pMember (g + 2)
      ('"' :: 'c' :: 'h' :: 'e' :: 'c' :: 'k' :: 's' :: 'u' :: 'm' :: '"' :: ':' :: '"' ::
        (ckl ++ ('"' :: '\x7d' :: [])))
      (acc ++ [("id", JValue.str (String.mk idl))]) =
      match pVal (g + 1) ('"' :: (ckl ++ ('"' :: ('\x7d' :: [])))) with
      | none => none
      | some (v, r3) =>
        match skipWs r3 with
        | ',' :: r4 => pMember (g + 1) r4
            ((acc ++ [("id", JValue.str (String.mk idl))]) ++ [("checksum", v)])
        | '\x7d' :: r4 => some (JValue.obj
            ((acc ++ [("id", JValue.str (String.mk idl))]) ++ [("checksum", v)]), r4)
        | _ => none := rfl
  rw [h2, pVal_str_value g ckl ('\x7d' :: []) hck]
  change some (JValue.obj ((acc ++ [("id", JValue.str (String.mk idl))]) ++
    [("checksum", JValue.str (String.mk ckl))]), ([] : List Char)) = _
  rw [List.append_assoc]
  rfl

lemma pVal_block (m : GoogleTaskMetadata) (hid : safeMetaStr m.id) (hck : safeMetaStr m.checksum)
    (f : Nat) :
    pVal (f + 5) (stringifyMetadata m) =
      some (JValue.obj [("id", JValue.str m.id), ("checksum", JValue.str m.checksum)], []) := by
  have hshape : stringifyMetadata m =
      '\x7b' :: '"' :: 'i' :: 'd' :: '"' :: ':' :: '"' ::
        (m.id.data ++ ('"' :: ',' :: '"' :: 'c' :: 'h' :: 'e' :: 'c' :: 'k' :: 's' :: 'u' ::
          'm' :: '"' :: ':' :: '"' :: (m.checksum.data ++ ('"' :: '\x7d' :: [])))) := by
    rw [stringifyMetadata, jsonQuote_safe hid, jsonQuote_safe hck]
    simp
  rw [hshape]
  change pMember (f + 3)
    ('"' :: 'i' :: 'd' :: '"' :: ':' :: '"' ::
      (m.id.data ++ ('"' :: ',' :: '"' :: 'c' :: 'h' :: 'e' :: 'c' :: 'k' :: 's' :: 'u' ::
        'm' :: '"' :: ':' :: '"' :: (m.checksum.data ++ ('"' :: '\x7d' :: []))))) [] = _
  rw [pMember_id_ck f m.id.data m.checksum.data hid hck []]
  rfl

lemma jsonParse_block (m : GoogleTaskMetadata) (hid : safeMetaStr m.id)
    (hck : safeMetaStr m.checksum) :
    jsonParse (String.mk (stringifyMetadata m)) =
      some (JValue.obj [("id", JValue.str m.id), ("checksum", JValue.str m.checksum)]) := by
  rw [jsonParse]
  rw [show (String.mk (stringifyMetadata m)).length = (stringifyMetadata m).length from rfl,
    show (String.mk (stringifyMetadata m)).data = stringifyMetadata m from rfl]
  have hge : 1 ≤ (stringifyMetadata m).length := by
    rw [stringifyMetadata]
    simp
  rw [show 2 * (stringifyMetadata m).length + 4 =
    (2 * (stringifyMetadata m).length - 1) + 5 from by omega]
  rw [pVal_block m hid hck (2 * (stringifyMetadata m).length - 1)]
  rfl

lemma jsTrim_keep {a b : Char} (mid : List Char) (ha : isJsSpace a = false)
    (hb : isJsSpace b = false) :
    jsTrimList (a :: (mid ++ [b])) = a :: (mid ++ [b]) := by
  simp [jsTrimList, List.dropWhile_cons, ha, hb]

lemma trim_stringify (m : GoogleTaskMetadata) :
    jsTrimList (stringifyMetadata m) = stringifyMetadata m := by
  rw [stringifyMetadata]
  exact jsTrim_keep _ (by decide) (by decide)

lemma stringify_head_last (m : GoogleTaskMetadata) :
    (stringifyMetadata m).head? = some '\x7b' ∧
      (stringifyMetadata m).getLast? = some '\x7d' := by
  constructor
  · rw [stringifyMetadata]
    rfl
  · rw [stringifyMetadata, List.getLast?_concat]

lemma stringify_ne_nil (m : GoogleTaskMetadata) : stringifyMetadata m ≠ [] := by
  rw [stringifyMetadata]
  simp

lemma extract_block_string (pre : List Char) (m : GoogleTaskMetadata)
    (hpre : ∀ s ∈ pre.tails, gtaskOpen s = false)
    (hid : safeMetaStr m.id) (hck : safeMetaStr m.checksum)
    (hidc : noCloseStr m.id) (hckc : noCloseStr m.checksum) :
    extractGoogleTaskMetadata
      (String.mk (pre ++ (" <!-- gtask:".data ++ (stringifyMetadata m ++ " -->".data)))) =
      some m := by
  rw [extractGoogleTaskMetadata]
  rw [show (String.mk (pre ++ (" <!-- gtask:".data ++
      (stringifyMetadata m ++ " -->".data)))).data =
      pre ++ (" <!-- gtask:".data ++ (stringifyMetadata m ++ " -->".data)) from rfl]
  rw [findCapture_append_gtask (stringifyMetadata m) (block_safe m hid hck)
    (stringify_noClose m hid hck hidc hckc) pre hpre]
  try dsimp only
  rw [if_neg (stringify_ne_nil m)]
  try dsimp only
  rw [trim_stringify m]
  rw [if_pos (stringify_head_last m)]
  rw [jsonParse_block m hid hck]
  rfl

lemma update_none_eq_trimEnd {line : String} (h : noGtaskOpen line) :
    updateMarkdownLineWithMetadata line none = String.mk (jsTrimEndList line.data) := by
  rw [updateMarkdownLineWithMetadata, stripAll_id_of_noOpen h]

/-- Claim C8 (amended): for every line on which the gtask comment opener
matches nowhere (benign HTML comments are fine) and every metadata whose id
and checksum consist of characters that are not whitespace, `"`, `\` or
control characters — `-` included — and contain no `-->` substring, decoding
the encoded line recovers exactly the metadata; encoding with null metadata
strips/removes the block, leaving the `trimEnd`ed line, whose decode is
absent; decoding a line with no gtask opener returns absent; and decoding
structurally malformed blocks (non-JSON content, non-string or missing
fields, empty capture) returns absent, while encoding onto a line holding an
old block first strips that block.  (A value containing `-->` closes the
comment early and breaks the round-trip, see the counterexample.) -/
theorem metadata_codec_roundtrip :
    (∀ (line : String) (m : GoogleTaskMetadata), noGtaskOpen line →
       safeMetaStr m.id → safeMetaStr m.checksum →
       noCloseStr m.id → noCloseStr m.checksum →
       extractGoogleTaskMetadata (updateMarkdownLineWithMetadata line (some m)) = some m) ∧
    (∀ line : String, noGtaskOpen line →
       updateMarkdownLineWithMetadata line none = String.mk (jsTrimEndList line.data) ∧
       extractGoogleTaskMetadata (updateMarkdownLineWithMetadata line none) = none) ∧
    (∀ line : String, noGtaskOpen line → extractGoogleTaskMetadata line = none) ∧
    (extractGoogleTaskMetadata "- [ ] x <!-- gtask:oops -->" = none ∧
     extractGoogleTaskMetadata "- [ ] x <!-- gtask:\x7b\"id\":5,\"checksum\":\"c\"\x7d -->" =
       none ∧
     extractGoogleTaskMetadata "- [ ] x <!-- gtask:\x7b\"id\":\"a\"\x7d -->" = none ∧
     extractGoogleTaskMetadata "- [ ] x <!-- gtask: -->" = none) ∧
    updateMarkdownLineWithMetadata
        "- [ ] x <!-- gtask:\x7b\"id\":\"old\",\"checksum\":\"h0\"\x7d -->"
        (some ⟨"new", "h2"⟩) =
      "- [ ] x <!-- gtask:\x7b\"id\":\"new\",\"checksum\":\"h2\"\x7d -->" := by
  refine ⟨?_, ?_, ?_, ⟨rfl, rfl, rfl, rfl⟩, rfl⟩
  · intro line m hline hid hck hidc hckc
    rw [updateMarkdownLineWithMetadata, stripAll_id_of_noOpen hline]
    rw [show ((jsTrimEndList line.data ++ " <!-- gtask:".data) ++ stringifyMetadata m) ++
        " -->".data =
        jsTrimEndList line.data ++ (" <!-- gtask:".data ++ (stringifyMetadata m ++ " -->".data))
        from by simp [List.append_assoc]]
    exact extract_block_string _ m (noOpen_of_front (jsTrimEndList_front _) hline)
      hid hck hidc hckc
  · intro line hline
    refine ⟨update_none_eq_trimEnd hline, ?_⟩
    rw [update_none_eq_trimEnd hline]
    exact extract_none_of_noOpen (noOpen_of_front (jsTrimEndList_front _) hline)
  · intro line hline
    exact extract_none_of_noOpen hline

/-- Claim C8, counterexample to the claim as stated: for the well-formed
metadata `{id := "a", checksum := "-->"}` the decode of the encoded line
returns absent instead of the metadata — the `-->` inside the checksum closes
the comment early for the lazy regular expression, leaving unparsable
JSON. -/
theorem metadata_roundtrip_counterexample :
    extractGoogleTaskMetadata
        (updateMarkdownLineWithMetadata "- [ ] t" (some ⟨"a", "-->"⟩)) = none ∧
      extractGoogleTaskMetadata
        (updateMarkdownLineWithMetadata "- [ ] t" (some ⟨"a", "-->"⟩)) ≠
        some ⟨"a", "-->"⟩ := by
  refine ⟨rfl, ?_⟩
  intro hc
  rw [show extractGoogleTaskMetadata
    (updateMarkdownLineWithMetadata "- [ ] t" (some ⟨"a", "-->"⟩)) =
    none from rfl] at hc
  exact Option.noConfusion hc

/-- Witness for `metadata_codec_roundtrip` at concrete inputs: a line with a
benign HTML comment and a checksum with the leading `-` that the hash of the
plugin renders for title "a" (`toString(16)` of a negative 32-bit value). -/
theorem metadata_codec_roundtrip_witness :
    extractGoogleTaskMetadata
        (updateMarkdownLineWithMetadata "- [ ] Buy milk <!-- note -->"
          (some ⟨"T1", "-2456d997"⟩)) =
        some ⟨"T1", "-2456d997"⟩ ∧
      extractGoogleTaskMetadata "- [ ] Buy milk <!-- note -->" = none :=
  ⟨metadata_codec_roundtrip.1 "- [ ] Buy milk <!-- note -->" ⟨"T1", "-2456d997"⟩
      (by decide) (by decide) (by decide) (by decide) (by decide),
   metadata_codec_roundtrip.2.2.1 "- [ ] Buy milk <!-- note -->" (by decide)⟩

/-! ### Reconciliation engine (C1, C2) -/

lemma checksumOf_set_metadata (r : MReminder) (x : Option MMeta) :
    checksumOf { r with metadata := x } = checksumOf r := rfl

lemma findTask_append_some {rm : Remote} {inp : TaskInput} {id : Nat} {t : MTask}
    (h : findTask rm id = some t) : findTask (createTask rm inp).1 id = some t := by
  rw [findTask] at h ⊢
  rw [createTask]
  rw [List.find?_append, h]
  rfl

lemma findTask_create_new (rm : Remote) (inp : TaskInput) (hwf : remoteWF rm) :
    findTask (createTask rm inp).1 rm.counter = some (createTask rm inp).2 := by
  rw [findTask, createTask, List.find?_append]
  have hnone : rm.tasks.find? (fun t => t.id = rm.counter) = none := by
    rw [List.find?_eq_none]
    intro t ht
    have := hwf.2 t ht
    simp
    omega
  rw [hnone]
  simp

lemma patchTask_id (t : MTask) (inp : TaskInput) : (patchTask t inp).id = t.id := rfl

lemma patchTask_hidden (t : MTask) (inp : TaskInput) : (patchTask t inp).hidden = t.hidden := rfl

lemma find?_map_id_preserving (f : MTask → MTask) (hf : ∀ t, (f t).id = t.id) (id' : Nat) :
    ∀ ts : List MTask,
      (ts.map f).find? (fun t => t.id = id') = (ts.find? (fun t => t.id = id')).map f := by
  intro ts
  induction ts with
  | nil => rfl
  | cons t ts ih =>
    rw [List.map_cons, List.find?_cons, List.find?_cons]
    by_cases h : t.id = id'
    · rw [show (decide ((f t).id = id')) = true from by rw [hf t]; simpa using h,
        show (decide (t.id = id')) = true from by simpa using h]
      rfl
    · rw [show (decide ((f t).id = id')) = false from by rw [hf t]; simpa using h,
        show (decide (t.id = id')) = false from by simpa using h]
      dsimp only
      exact ih

lemma updateTask_eq {rm : Remote} {id : Nat} {inp : TaskInput} {t : MTask}
    (h : findTask rm id = some t) :
    updateTask rm id inp =
      some { rm with tasks := rm.tasks.map (fun t => if t.id = id then patchTask t inp else t) } := by
  rw [updateTask, h]

lemma findTask_update {rm : Remote} {id : Nat} {inp : TaskInput} {rm' : Remote}
    (h : updateTask rm id inp = some rm') (id' : Nat) :
    findTask rm' id' =
      (findTask rm id').map (fun t => if t.id = id then patchTask t inp else t) := by
  rw [updateTask] at h
  cases hf : findTask rm id with
  | none => rw [hf] at h; cases h
  | some t0 =>
    rw [hf] at h
    cases h
    rw [findTask, findTask]
    exact find?_map_id_preserving _ (fun t => by by_cases ht : t.id = id <;> simp [ht, patchTask])
      id' rm.tasks

lemma updateTask_counter {rm : Remote} {id : Nat} {inp : TaskInput} {rm' : Remote}
    (h : updateTask rm id inp = some rm') : rm'.counter = rm.counter := by
  rw [updateTask] at h
  cases hf : findTask rm id with
  | none => rw [hf] at h; cases h
  | some t0 => rw [hf] at h; cases h; rfl

lemma updateTask_map_id {rm : Remote} {id : Nat} {inp : TaskInput} {rm' : Remote}
    (h : updateTask rm id inp = some rm') : rm'.tasks.map MTask.id = rm.tasks.map MTask.id := by
  rw [updateTask] at h
  cases hf : findTask rm id with
  | none => rw [hf] at h; cases h
  | some t0 =>
    rw [hf] at h
    cases h
    rw [List.map_map]
    exact List.map_congr_left (fun t _ => by by_cases ht : t.id = id <;> simp [ht, patchTask])

lemma activeMapGet_aux_mem {id : Nat} :
    ∀ (act : List MTask) (init : Option MTask) (t : MTask),
      act.foldl (fun acc t => if t.id = id then some t else acc) init = some t →
      (t ∈ act ∧ t.id = id) ∨ init = some t := by
  intro act
  induction act with
  | nil => intro init t h; exact Or.inr h
  | cons a act ih =>
    intro init t h
    rw [List.foldl_cons] at h
    rcases ih _ t h with ⟨hmem, hid⟩ | hstep
    · exact Or.inl ⟨List.mem_cons_of_mem a hmem, hid⟩
    · by_cases ha : a.id = id
      · rw [if_pos ha] at hstep
        cases hstep
        exact Or.inl ⟨List.mem_cons_self a act, ha⟩
      · rw [if_neg ha] at hstep
        exact Or.inr hstep

lemma activeMapGet_mem {act : List MTask} {id : Nat} {t : MTask}
    (h : activeMapGet act id = some t) : t ∈ act ∧ t.id = id := by
  rcases activeMapGet_aux_mem act none t h with h' | h'
  · exact h'
  · cases h'

lemma activeMapGet_aux_skip {id : Nat} :
    ∀ (act : List MTask) (init : Option MTask), (∀ t ∈ act, t.id ≠ id) →
      act.foldl (fun acc t => if t.id = id then some t else acc) init = init := by
  intro act
  induction act with
  | nil => intro init _; rfl
  | cons a act ih =>
    intro init h
    rw [List.foldl_cons, if_neg (h a (List.mem_cons_self a act)),
      ih init (fun t ht => h t (List.mem_cons_of_mem a ht))]

lemma activeMapGet_none {act : List MTask} {id : Nat} (h : ∀ t ∈ act, t.id ≠ id) :
    activeMapGet act id = none :=
  activeMapGet_aux_skip act none h

lemma nodup_id_unique :
    ∀ {ts : List MTask}, (ts.map MTask.id).Nodup →
      ∀ {t1 t2 : MTask}, t1 ∈ ts → t2 ∈ ts → t1.id = t2.id → t1 = t2 := by
  intro ts
  induction ts with
  | nil => intro _ t1 t2 h1; cases h1
  | cons a ts ih =>
    intro hnd t1 t2 h1 h2 hid
    rw [List.map_cons, List.nodup_cons] at hnd
    rcases List.mem_cons.mp h1 with rfl | h1' <;> rcases List.mem_cons.mp h2 with rfl | h2'
    · rfl
    · exact absurd (by rw [hid]; exact List.mem_map_of_mem MTask.id h2') hnd.1
    · exact absurd (by rw [← hid]; exact List.mem_map_of_mem MTask.id h1') hnd.1
    · exact ih hnd.2 h1' h2' hid

lemma activeMapGet_of_mem_nodup {act : List MTask} (hnd : (act.map MTask.id).Nodup)
    {t : MTask} {id : Nat} (hmem : t ∈ act) (hid : t.id = id) :
    activeMapGet act id = some t := by
  induction act with
  | nil => cases hmem
  | cons a act ih =>
    rw [List.map_cons, List.nodup_cons] at hnd
    rcases List.mem_cons.mp hmem with rfl | hmem'
    · rw [activeMapGet, List.foldl_cons, if_pos hid]
      exact activeMapGet_aux_skip act (some t) (fun t' ht' hc => by
        exact hnd.1 (by rw [hid, ← hc]; exact List.mem_map_of_mem MTask.id ht'))
    · rw [activeMapGet, List.foldl_cons]
      have hne : ¬ (a.id = id) := by
        intro hc
        exact hnd.1 (by rw [hc, ← hid]; exact List.mem_map_of_mem MTask.id hmem')
      rw [if_neg hne]
      exact ih hnd.2 hmem'

lemma activeTasks_nodup {rm : Remote} (hwf : remoteWF rm) :
    ((activeTasks rm).map MTask.id).Nodup :=
  hwf.1.sublist ((List.filter_sublist rm.tasks).map MTask.id)

lemma mem_activeTasks {rm : Remote} {t : MTask} :
    t ∈ activeTasks rm ↔ t ∈ rm.tasks ∧ t.status = MTaskStatus.needsAction ∧ t.hidden = false := by
  rw [activeTasks, List.mem_filter]
  simp

lemma activeMapGet_active_some {rm : Remote} {id : Nat} {t : MTask} (hwf : remoteWF rm)
    (hfind : findTask rm id = some t) (hst : t.status = MTaskStatus.needsAction)
    (hhid : t.hidden = false) : activeMapGet (activeTasks rm) id = some t := by
  have hmem : t ∈ rm.tasks := List.mem_of_find?_eq_some hfind
  have hid : t.id = id := by simpa using List.find?_some hfind
  exact activeMapGet_of_mem_nodup (activeTasks_nodup hwf)
    (mem_activeTasks.mpr ⟨hmem, hst, hhid⟩) hid

lemma activeMapGet_completed_none {rm : Remote} {id : Nat} {t : MTask} (hwf : remoteWF rm)
    (hfind : findTask rm id = some t) (hst : t.status = MTaskStatus.completed) :
    activeMapGet (activeTasks rm) id = none := by
  have hmem : t ∈ rm.tasks := List.mem_of_find?_eq_some hfind
  have hid : t.id = id := by simpa using List.find?_some hfind
  refine activeMapGet_none (fun t' ht' hc => ?_)
  obtain ⟨hmem', hst', _⟩ := mem_activeTasks.mp ht'
  have := nodup_id_unique hwf.1 hmem' hmem (by rw [hc, hid])
  rw [this, hst] at hst'
  cases hst'

/-! Dispatch equations of the loop body, one per branch of the source. -/

lemma syncItem_lineBad {act : List MTask} {rm : Remote} {r : MReminder}
    (h : r.lineOk = false) :
    syncItem act rm r = { reminder := r, remote := rm, status := .skipped, writes := [] } := by
  rw [syncItem, if_pos h]

lemma syncItem_create {act : List MTask} {rm : Remote} {r : MReminder}
    (hok : r.lineOk = true) (hmd : r.metadata = none) :
    syncItem act rm r = handleCreateGoogleTask r rm := by
  rw [syncItem, if_neg (by rw [hok]; simp), hmd]

lemma syncItem_existing {act : List MTask} {rm : Remote} {r : MReminder} {md : MMeta}
    (hok : r.lineOk = true) (hmd : r.metadata = some md) :
    syncItem act rm r =
      handleExistingTaskSync act r rm md (checksumOf r) (convertObsidianToGoogleTask r) := by
  rw [syncItem, if_neg (by rw [hok]; simp), hmd]

lemma handleCreate_eq (r : MReminder) (rm : Remote) :
    handleCreateGoogleTask r rm =
      { reminder := { r with metadata := some ⟨rm.counter, checksumOf r⟩ },
        remote := (createTask rm (convertObsidianToGoogleTask r)).1,
        status := .created, writes := [some ⟨rm.counter, checksumOf r⟩] } := rfl

lemma handleExisting_skip {act : List MTask} {r : MReminder} {rm : Remote} {md : MMeta}
    {cc : String} {inp : TaskInput} {tA : MTask}
    (hact : activeMapGet act md.id = some tA) (hcs : md.checksum = cc) :
    handleExistingTaskSync act r rm md cc inp =
      { reminder := r, remote := rm, status := .skipped, writes := [] } := by
  rw [handleExistingTaskSync, hact]
  dsimp only
  rw [if_pos hcs]

lemma handleExisting_update {act : List MTask} {r : MReminder} {rm : Remote} {md : MMeta}
    {cc : String} {inp : TaskInput} {tA : MTask} {rm' : Remote}
    (hact : activeMapGet act md.id = some tA) (hcs : ¬ (md.checksum = cc))
    (hup : updateTask rm md.id inp = some rm') :
    handleExistingTaskSync act r rm md cc inp =
      { reminder := { r with metadata := some ⟨md.id, cc⟩ }, remote := rm',
        status := .updated, writes := [some ⟨md.id, cc⟩] } := by
  rw [handleExistingTaskSync, hact]
  dsimp only
  rw [if_neg hcs, hup]
  rfl

lemma handleExisting_stale {act : List MTask} {r : MReminder} {rm : Remote} {md : MMeta}
    {cc : String} {inp : TaskInput} (hact : activeMapGet act md.id = none) :
    handleExistingTaskSync act r rm md cc inp = handlePotentiallyStaleLink r rm md inp cc := by
  rw [handleExistingTaskSync, hact]

lemma recreate_eq (r : MReminder) (rm : Remote) (inp : TaskInput) (cc : String) :
    recreateGoogleTaskAndUpdateComment r rm inp cc =
      { reminder := { r with metadata := some ⟨rm.counter, cc⟩ },
        remote := (createTask rm inp).1, status := .recreated,
        writes := [none, some ⟨rm.counter, cc⟩] } := rfl

lemma stale_404 {r : MReminder} {rm : Remote} {md : MMeta} {inp : TaskInput} {cc : String}
    (hget : getTask rm md.id = none) :
    handlePotentiallyStaleLink r rm md inp cc =
      { reminder := { r with metadata := some ⟨rm.counter, cc⟩ },
        remote := (createTask rm inp).1, status := .recreated,
        writes := [none, some ⟨rm.counter, cc⟩] } := by
  rw [handlePotentiallyStaleLink, hget]
  rfl

lemma stale_unexpected {r : MReminder} {rm : Remote} {md : MMeta} {inp : TaskInput}
    {cc : String} {t : MTask} (hget : getTask rm md.id = some t)
    (hst : ¬ (t.status = MTaskStatus.completed)) :
    handlePotentiallyStaleLink r rm md inp cc =
      { reminder := { r with metadata := some ⟨rm.counter, cc⟩ },
        remote := (createTask rm inp).1, status := .recreated,
        writes := [none, some ⟨rm.counter, cc⟩] } := by
  rw [handlePotentiallyStaleLink, hget]
  dsimp only
  rw [if_neg hst]
  rfl

lemma handleComplete_flip {r : MReminder} {md0 : MMeta} (hok : r.lineOk = true)
    (hcb : r.checkbox = CheckboxState.unchecked) (hmd : r.metadata = some md0) :
    handleCompleteObsidianReminder r =
      ({ r with
          checkbox := CheckboxState.checked, done := true,
          metadata := some ⟨md0.id,
            checksumOf { r with checkbox := CheckboxState.checked, done := true }⟩ }, true) := by
  rw [handleCompleteObsidianReminder, if_neg (by rw [hok]; simp), hcb]
  dsimp only
  rw [hmd]

lemma handleComplete_noop {r : MReminder} (hok : r.lineOk = true)
    (hcb : ¬ (r.checkbox = CheckboxState.unchecked)) :
    handleCompleteObsidianReminder r = (r, true) := by
  rw [handleCompleteObsidianReminder, if_neg (by rw [hok]; simp)]
  cases hc : r.checkbox with
  | unchecked => exact absurd hc hcb
  | checked => rfl
  | noCheckbox => rfl

lemma stale_completed_flip {r : MReminder} {rm : Remote} {md : MMeta} {inp : TaskInput}
    {cc : String} {t : MTask} {md0 : MMeta} (hget : getTask rm md.id = some t)
    (hst : t.status = MTaskStatus.completed) (hok : r.lineOk = true)
    (hcb : r.checkbox = CheckboxState.unchecked) (hmd : r.metadata = some md0) :
    handlePotentiallyStaleLink r rm md inp cc =
      { reminder := { r with
            checkbox := CheckboxState.checked, done := true,
            metadata := some ⟨md0.id,
              checksumOf { r with checkbox := CheckboxState.checked, done := true }⟩ },
        remote := rm, status := .completedLocally, writes := [] } := by
  rw [handlePotentiallyStaleLink, hget]
  dsimp only
  rw [if_pos hst, handleComplete_flip hok hcb hmd]
  rfl

lemma stale_completed_noop {r : MReminder} {rm : Remote} {md : MMeta} {inp : TaskInput}
    {cc : String} {t : MTask} (hget : getTask rm md.id = some t)
    (hst : t.status = MTaskStatus.completed) (hok : r.lineOk = true)
    (hcb : ¬ (r.checkbox = CheckboxState.unchecked)) :
    handlePotentiallyStaleLink r rm md inp cc =
      { reminder := r, remote := rm, status := .completedLocally, writes := [] } := by
  rw [handlePotentiallyStaleLink, hget]
  dsimp only
  rw [if_pos hst, handleComplete_noop hok hcb]
  rfl

lemma handleExisting_update_fail {act : List MTask} {r : MReminder} {rm : Remote} {md : MMeta}
    {cc : String} {inp : TaskInput} {tA : MTask}
    (hact : activeMapGet act md.id = some tA) (hcs : ¬ (md.checksum = cc))
    (hup : updateTask rm md.id inp = none) :
    handleExistingTaskSync act r rm md cc inp =
      { reminder := r, remote := rm, status := .error, writes := [] } := by
  rw [handleExistingTaskSync, hact]
  dsimp only
  rw [if_neg hcs, hup]

lemma updateTask_tasks {rm : Remote} {id : Nat} {inp : TaskInput} {rm' : Remote}
    (h : updateTask rm id inp = some rm') :
    rm'.tasks = rm.tasks.map (fun t => if t.id = id then patchTask t inp else t) := by
  rw [updateTask] at h
  cases hf : findTask rm id with
  | none => rw [hf] at h; cases h
  | some t0 => rw [hf] at h; cases h; rfl

/-- The loop body only ever leaves the store alone, creates one task, or
updates an id the snapshot knows. -/
lemma syncItem_step (act : List MTask) (rm : Remote) (r : MReminder) :
    RemoteStep act rm (syncItem act rm r).remote := by
  by_cases hok : r.lineOk = true
  case neg =>
    rw [syncItem_lineBad (by simpa using hok)]
    exact .refl rm
  case pos =>
    cases hmd : r.metadata with
    | none =>
      rw [syncItem_create hok hmd, handleCreate_eq]
      exact .create rm _
    | some md =>
      rw [syncItem_existing hok hmd]
      cases hact : activeMapGet act md.id with
      | some tA =>
        by_cases hcs : md.checksum = checksumOf r
        · rw [handleExisting_skip hact hcs]
          exact .refl rm
        · cases hup : updateTask rm md.id (convertObsidianToGoogleTask r) with
          | some rm' =>
            rw [handleExisting_update hact hcs hup]
            exact .update rm md.id _ rm' (by rw [hact]; rfl) hup
          | none =>
            rw [handleExisting_update_fail hact hcs hup]
            exact .refl rm
      | none =>
        rw [handleExisting_stale hact]
        cases hget : getTask rm md.id with
        | none =>
          rw [stale_404 hget]
          exact .create rm _
        | some t =>
          by_cases hst : t.status = MTaskStatus.completed
          · by_cases hcb : r.checkbox = CheckboxState.unchecked
            · rw [stale_completed_flip hget hst hok hcb hmd]
              exact .refl rm
            · rw [stale_completed_noop hget hst hok hcb]
              exact .refl rm
          · rw [stale_unexpected hget hst]
            exact .create rm _

lemma step_preserves_goodA {act : List MTask} {rm rm' : Remote} {q : MReminder}
    (hs : RemoteStep act rm rm') (h : goodA rm q) : goodA rm' q := by
  obtain ⟨md, t, hmd, hfind, hhid, hcs⟩ := h
  cases hs with
  | refl => exact ⟨md, t, hmd, hfind, hhid, hcs⟩
  | create inp => exact ⟨md, t, hmd, findTask_append_some hfind, hhid, hcs⟩
  | update id inp rm2 hact hup =>
    refine ⟨md, if t.id = id then patchTask t inp else t, hmd, ?_, ?_, hcs⟩
    · rw [findTask_update hup, hfind]
      rfl
    · by_cases ht : t.id = id
      · rw [if_pos ht, patchTask_hidden]
        exact hhid
      · rw [if_neg ht]
        exact hhid

lemma step_preserves_goodB {act : List MTask} {rm rm' : Remote} {q : MReminder}
    (hs : RemoteStep act rm rm') (h : goodB act rm q) : goodB act rm' q := by
  obtain ⟨md, t, hmd, hfind, hst, hcb, hnact⟩ := h
  cases hs with
  | refl => exact ⟨md, t, hmd, hfind, hst, hcb, hnact⟩
  | create inp => exact ⟨md, t, hmd, findTask_append_some hfind, hst, hcb, hnact⟩
  | update id inp rm2 hact hup =>
    have hne : ¬ (md.id = id) := by
      intro hc
      rw [← hc, hnact] at hact
      cases hact
    have ht : ¬ (t.id = id) := by
      have hmid : t.id = md.id := by simpa using List.find?_some hfind
      rw [hmid]
      exact hne
    refine ⟨md, t, hmd, ?_, hst, hcb, hnact⟩
    rw [findTask_update hup, hfind]
    show some (if t.id = id then patchTask t inp else t) = some t
    rw [if_neg ht]

lemma step_preserves_goodItem {act : List MTask} {rm rm' : Remote} {q : MReminder}
    (hs : RemoteStep act rm rm') (h : goodItem act rm q) : goodItem act rm' q := by
  rcases h with h | h | h
  · exact Or.inl h
  · exact Or.inr (Or.inl (step_preserves_goodA hs h))
  · exact Or.inr (Or.inr (step_preserves_goodB hs h))

lemma step_preserves_wf {act : List MTask} {rm rm' : Remote}
    (hs : RemoteStep act rm rm') (hwf : remoteWF rm) : remoteWF rm' := by
  cases hs with
  | refl => exact hwf
  | create inp =>
    constructor
    · rw [createTask]
      dsimp only
      rw [List.map_append, List.nodup_append]
      refine ⟨hwf.1, by simp, ?_⟩
      intro x hx
      simp only [List.map_cons, List.map_nil, List.mem_singleton]
      intro hc
      obtain ⟨t, ht, hxid⟩ := List.mem_map.mp hx
      have := hwf.2 t ht
      omega
    · intro t ht
      rw [createTask] at ht ⊢
      dsimp only at ht ⊢
      rcases List.mem_append.mp ht with hold | hnew
      · have := hwf.2 t hold
        omega
      · rw [List.mem_singleton] at hnew
        rw [hnew]
        exact Nat.lt_succ_self rm.counter
  | update id inp rm2 hact hup =>
    constructor
    · rw [updateTask_map_id hup]
      exact hwf.1
    · intro t ht
      rw [updateTask_tasks hup] at ht
      obtain ⟨t0, ht0, hft⟩ := List.mem_map.mp ht
      rw [updateTask_counter hup, ← hft]
      have := hwf.2 t0 ht0
      by_cases h0 : t0.id = id
      · rw [if_pos h0, patchTask_id]
        exact this
      · rw [if_neg h0]
        exact this

lemma step_preserves_inv {act : List MTask} {rm rm' : Remote}
    (hs : RemoteStep act rm rm') (hinv : invAct act rm) : invAct act rm' := by
  intro t ht
  obtain ⟨t', hfind, hhid⟩ := hinv t ht
  cases hs with
  | refl => exact ⟨t', hfind, hhid⟩
  | create inp => exact ⟨t', findTask_append_some hfind, hhid⟩
  | update id inp rm2 hact hup =>
    refine ⟨if t'.id = id then patchTask t' inp else t', ?_, ?_⟩
    · rw [findTask_update hup, hfind]
      rfl
    · by_cases h0 : t'.id = id
      · rw [if_pos h0, patchTask_hidden]
        exact hhid
      · rw [if_neg h0]
        exact hhid

lemma findTask_of_mem_nodup :
    ∀ {ts : List MTask}, (ts.map MTask.id).Nodup → ∀ {t : MTask}, t ∈ ts →
      ts.find? (fun x => x.id = t.id) = some t := by
  intro ts
  induction ts with
  | nil => intro _ t h; cases h
  | cons a ts ih =>
    intro hnd t hmem
    rw [List.map_cons, List.nodup_cons] at hnd
    rcases List.mem_cons.mp hmem with rfl | hmem'
    · rw [List.find?_cons, show (decide (t.id = t.id)) = true from by simp]
    · have hne : ¬ (a.id = t.id) := by
        intro hc
        exact hnd.1 (by rw [hc]; exact List.mem_map_of_mem MTask.id hmem')
      rw [List.find?_cons, show (decide (a.id = t.id)) = false from by simpa using hne]
      exact ih hnd.2 hmem'

lemma invAct_init {rm : Remote} (hwf : remoteWF rm) : invAct (activeTasks rm) rm := by
  intro t ht
  obtain ⟨hmem, _, hhid⟩ := mem_activeTasks.mp ht
  exact ⟨t, findTask_of_mem_nodup hwf.1 hmem, hhid⟩

/-- Whatever the loop body does to an item, the item it hands back is good
with respect to the store it hands back. -/
lemma syncItem_good (act : List MTask) (rm : Remote) (r : MReminder)
    (hwf : remoteWF rm) (hinv : invAct act rm) :
    goodItem act (syncItem act rm r).remote (syncItem act rm r).reminder := by
  by_cases hok : r.lineOk = true
  case neg =>
    rw [syncItem_lineBad (by simpa using hok)]
    exact Or.inl (by simpa using hok)
  case pos =>
    cases hmd : r.metadata with
    | none =>
      rw [syncItem_create hok hmd, handleCreate_eq]
      exact Or.inr (Or.inl ⟨⟨rm.counter, checksumOf r⟩,
        (createTask rm (convertObsidianToGoogleTask r)).2, rfl,
        findTask_create_new rm _ hwf, rfl, (checksumOf_set_metadata r _).symm⟩)
    | some md =>
      rw [syncItem_existing hok hmd]
      cases hact : activeMapGet act md.id with
      | some tA =>
        obtain ⟨hmemA, hidA⟩ := activeMapGet_mem hact
        obtain ⟨t', hfind, hhid⟩ := hinv tA hmemA
        rw [hidA] at hfind
        by_cases hcs : md.checksum = checksumOf r
        · rw [handleExisting_skip hact hcs]
          exact Or.inr (Or.inl ⟨md, t', hmd, hfind, hhid, hcs⟩)
        · have hup : updateTask rm md.id (convertObsidianToGoogleTask r) =
              some { rm with tasks := rm.tasks.map (fun t => if t.id = md.id then patchTask t (convertObsidianToGoogleTask r) else t) } :=
            updateTask_eq hfind
          rw [handleExisting_update hact hcs hup]
          refine Or.inr (Or.inl ⟨⟨md.id, checksumOf r⟩,
            (if t'.id = md.id then patchTask t' (convertObsidianToGoogleTask r) else t'),
            rfl, ?_, ?_, (checksumOf_set_metadata r _).symm⟩)
          · rw [findTask_update hup, hfind]
            rfl
          · by_cases ht : t'.id = md.id
            · rw [if_pos ht, patchTask_hidden]
              exact hhid
            · rw [if_neg ht]
              exact hhid
      | none =>
        rw [handleExisting_stale hact]
        cases hget : getTask rm md.id with
        | none =>
          rw [stale_404 hget]
          exact Or.inr (Or.inl ⟨⟨rm.counter, checksumOf r⟩,
            (createTask rm (convertObsidianToGoogleTask r)).2, rfl,
            findTask_create_new rm _ hwf, rfl, (checksumOf_set_metadata r _).symm⟩)
        | some t =>
          by_cases hst : t.status = MTaskStatus.completed
          · by_cases hcb : r.checkbox = CheckboxState.unchecked
            · rw [stale_completed_flip hget hst hok hcb hmd]
              refine Or.inr (Or.inr ⟨⟨md.id,
                checksumOf { r with checkbox := CheckboxState.checked, done := true }⟩,
                t, rfl, hget, hst, ?_, hact⟩)
              exact fun hcon => CheckboxState.noConfusion hcon
            · rw [stale_completed_noop hget hst hok hcb]
              exact Or.inr (Or.inr ⟨md, t, hmd, hget, hst, hcb, hact⟩)
          · rw [stale_unexpected hget hst]
            exact Or.inr (Or.inl ⟨⟨rm.counter, checksumOf r⟩,
              (createTask rm (convertObsidianToGoogleTask r)).2, rfl,
              findTask_create_new rm _ hwf, rfl, (checksumOf_set_metadata r _).symm⟩)

/-- A good item processed against its own store and the fresh active
snapshot of that store is skipped or mirrored, and leaves the store alone. -/
lemma syncItem_stable {act0 : List MTask} (rm : Remote) (r : MReminder)
    (hwf : remoteWF rm) (hg : goodItem act0 rm r) :
    (syncItem (activeTasks rm) rm r).remote = rm ∧
      ((syncItem (activeTasks rm) rm r).status = ItemStatus.skipped ∨
        (syncItem (activeTasks rm) rm r).status = ItemStatus.completedLocally) := by
  by_cases hok : r.lineOk = true
  case neg =>
    rw [syncItem_lineBad (by simpa using hok)]
    exact ⟨rfl, Or.inl rfl⟩
  case pos =>
    rcases hg with hbad | hA | hB
    · rw [hok] at hbad
      cases hbad
    · obtain ⟨md, t, hmd, hfind, hhid, hcs⟩ := hA
      rw [syncItem_existing hok hmd]
      cases hstat : t.status with
      | needsAction =>
        rw [handleExisting_skip (activeMapGet_active_some hwf hfind hstat hhid) hcs]
        exact ⟨rfl, Or.inl rfl⟩
      | completed =>
        rw [handleExisting_stale (activeMapGet_completed_none hwf hfind hstat)]
        by_cases hcb : r.checkbox = CheckboxState.unchecked
        · rw [stale_completed_flip hfind hstat hok hcb hmd]
          exact ⟨rfl, Or.inr rfl⟩
        · rw [stale_completed_noop hfind hstat hok hcb]
          exact ⟨rfl, Or.inr rfl⟩
    · obtain ⟨md, t, hmd, hfind, hst, hcb, _⟩ := hB
      rw [syncItem_existing hok hmd,
        handleExisting_stale (activeMapGet_completed_none hwf hfind hst),
        stale_completed_noop hfind hst hok hcb]
      exact ⟨rfl, Or.inr rfl⟩

lemma syncLoop_cons (act : List MTask) (r : MReminder) (rs : List MReminder) (rm : Remote) :
    syncLoop act (r :: rs) rm =
      ((syncItem act rm r).reminder :: (syncLoop act rs (syncItem act rm r).remote).1,
        (syncLoop act rs (syncItem act rm r).remote).2.1,
        Counts.bump (syncItem act rm r).status
          (syncLoop act rs (syncItem act rm r).remote).2.2) := by
  rw [syncLoop]

lemma syncLoop_preserves_good (act : List MTask) :
    ∀ (rs : List MReminder) (rm : Remote) (q : MReminder),
      goodItem act rm q → goodItem act (syncLoop act rs rm).2.1 q := by
  intro rs
  induction rs with
  | nil => intro rm q h; exact h
  | cons r rs ih =>
    intro rm q h
    rw [syncLoop_cons]
    exact ih _ q (step_preserves_goodItem (syncItem_step act rm r) h)

/-- Running the loop from a well-formed store with a faithful snapshot keeps
both invariants and makes every written-back item good for the final store. -/
lemma syncLoop_good (act : List MTask) :
    ∀ (rs : List MReminder) (rm : Remote), remoteWF rm → invAct act rm →
      remoteWF (syncLoop act rs rm).2.1 ∧ invAct act (syncLoop act rs rm).2.1 ∧
        ∀ q ∈ (syncLoop act rs rm).1, goodItem act (syncLoop act rs rm).2.1 q := by
  intro rs
  induction rs with
  | nil =>
    intro rm hwf hinv
    exact ⟨hwf, hinv, fun q hq => absurd hq (List.not_mem_nil q)⟩
  | cons r rs ih =>
    intro rm hwf hinv
    rw [syncLoop_cons]
    have hstep := syncItem_step act rm r
    obtain ⟨hwf2, hinv2, hgood2⟩ := ih (syncItem act rm r).remote
      (step_preserves_wf hstep hwf) (step_preserves_inv hstep hinv)
    refine ⟨hwf2, hinv2, ?_⟩
    intro q hq
    rcases List.mem_cons.mp hq with hq1 | hq2
    · rw [hq1]
      exact syncLoop_preserves_good act rs _ _ (syncItem_good act rm r hwf hinv)
    · exact hgood2 q hq2

/-- A loop over good items (run on their own store, with that store's fresh
snapshot) fixes the store and creates, updates and recreates nothing. -/
lemma syncLoop_stable {act0 : List MTask} :
    ∀ (rs : List MReminder) (rm : Remote), remoteWF rm →
      (∀ q ∈ rs, goodItem act0 rm q) →
      (syncLoop (activeTasks rm) rs rm).2.1 = rm ∧
        (syncLoop (activeTasks rm) rs rm).2.2.created = 0 ∧
        (syncLoop (activeTasks rm) rs rm).2.2.updated = 0 ∧
        (syncLoop (activeTasks rm) rs rm).2.2.recreated = 0 := by
  intro rs
  induction rs with
  | nil => intro rm hwf h; exact ⟨rfl, rfl, rfl, rfl⟩
  | cons r rs ih =>
    intro rm hwf h
    obtain ⟨hrm, hsts⟩ := syncItem_stable rm r hwf (h r (List.mem_cons_self r rs))
    rw [syncLoop_cons, hrm]
    obtain ⟨ih1, ih2, ih3, ih4⟩ := ih rm hwf (fun q hq => h q (List.mem_cons_of_mem r hq))
    refine ⟨ih1, ?_, ?_, ?_⟩ <;>
      (rcases hsts with h1 | h1 <;> rw [h1] <;> simp [Counts.bump, ih2, ih3, ih4])

/-- The shape of a pass that passes the enabled/auth/list guards. -/
lemma syncGoogleTasks_run {s : SyncState} {l0 : MTaskList}
    (hen : s.enabled = true) (hau : s.authed = true)
    (hl0 : s.lists.find? (fun l => l.title = s.listName) = some l0) :
    syncGoogleTasks s = SyncOutcome.ran
      { s with reminders := (syncLoop (activeTasks s.remote) s.reminders s.remote).1,
               remote := (syncLoop (activeTasks s.remote) s.reminders s.remote).2.1 }
      (syncLoop (activeTasks s.remote) s.reminders s.remote).2.2 := by
  rw [syncGoogleTasks, if_neg (by rw [hen]; simp), if_neg (by rw [hau]; simp), hl0]

/-- **C1** — Idempotence of the reconciliation pass.  For every sync state
that passes the guards (enabled, authenticated, target list present) and
whose remote store is well formed (unique task ids below the fresh-id
counter), a pass runs, and a second pass on its output runs and counts zero
creates, zero updates and zero recreates; moreover any item whose metadata
id is found in the active snapshot with a stored checksum equal to the
freshly computed one is skipped exactly — same line, same store, status
`skipped`. -/
theorem sync_idempotent (s : SyncState) (hen : s.enabled = true) (hau : s.authed = true)
    (l0 : MTaskList) (hl0 : s.lists.find? (fun l => l.title = s.listName) = some l0)
    (hwf : remoteWF s.remote) :
    (∃ s1 c1 s2 c2, syncGoogleTasks s = SyncOutcome.ran s1 c1 ∧
        syncGoogleTasks s1 = SyncOutcome.ran s2 c2 ∧
        c2.created = 0 ∧ c2.updated = 0 ∧ c2.recreated = 0) ∧
    (∀ (act : List MTask) (rm : Remote) (r : MReminder) (md : MMeta) (tA : MTask),
        r.lineOk = true → r.metadata = some md → activeMapGet act md.id = some tA →
        md.checksum = checksumOf r →
        syncItem act rm r =
          { reminder := r, remote := rm, status := ItemStatus.skipped, writes := [] }) := by
  constructor
  · obtain ⟨hwf1, hinv1, hgood1⟩ :=
      syncLoop_good (activeTasks s.remote) s.reminders s.remote hwf (invAct_init hwf)
    obtain ⟨hfix, hc, hu, hr⟩ :=
      syncLoop_stable (syncLoop (activeTasks s.remote) s.reminders s.remote).1
        (syncLoop (activeTasks s.remote) s.reminders s.remote).2.1 hwf1 hgood1
    have hen1 : ({ s with
        reminders := (syncLoop (activeTasks s.remote) s.reminders s.remote).1,
        remote := (syncLoop (activeTasks s.remote) s.reminders s.remote).2.1 } :
          SyncState).enabled = true := hen
    exact ⟨_, _, _, _, syncGoogleTasks_run hen hau hl0,
      syncGoogleTasks_run hen1 hau hl0, hc, hu, hr⟩
  · intro act rm r md tA hok hmd hact hcs
    rw [syncItem_existing hok hmd, handleExisting_skip hact hcs]

/-- Witness for `sync_idempotent`: the spec's "Buy milk" scenario — an empty
remote store and one never-synced reminder. -/
theorem sync_idempotent_witness :
    ∃ s1 c1 s2 c2,
      syncGoogleTasks
          { enabled := true, authed := true, listName := "Reminders",
            lists := [{ id := 0, title := "Reminders" }],
            remote := { tasks := [], counter := 0 },
            reminders := [{ title := "Buy milk",
                            due := some "2024-01-01T00:00:00.000Z",
                            done := false, lineOk := true,
                            checkbox := CheckboxState.unchecked,
                            metadata := none }] } = SyncOutcome.ran s1 c1 ∧
      syncGoogleTasks s1 = SyncOutcome.ran s2 c2 ∧
      c2.created = 0 ∧ c2.updated = 0 ∧ c2.recreated = 0 :=
  (sync_idempotent
    { enabled := true, authed := true, listName := "Reminders",
      lists := [{ id := 0, title := "Reminders" }],
      remote := { tasks := [], counter := 0 },
      reminders := [{ title := "Buy milk",
                      due := some "2024-01-01T00:00:00.000Z",
                      done := false, lineOk := true,
                      checkbox := CheckboxState.unchecked,
                      metadata := none }] }
    rfl rfl { id := 0, title := "Reminders" } (by decide) (by decide)).1

/-- **C2** — Stale-link resolution.  For a readable line whose metadata id
is absent from the active snapshot: a 404 on the direct fetch recreates —
the stale block is removed first (`none` write), a task is created under the
fresh id, and fresh metadata with that id and the current checksum is
written; a direct fetch returning a completed task flips the unchecked
checkbox, marks the item done, refreshes the metadata checksum to the
completed state, and leaves the remote store untouched — no task is
created. -/
theorem stale_link_resolution (act : List MTask) (rm : Remote) (r : MReminder) (md : MMeta)
    (hok : r.lineOk = true) (hmd : r.metadata = some md)
    (hact : activeMapGet act md.id = none) :
    (getTask rm md.id = none →
      syncItem act rm r =
        { reminder := { r with metadata := some ⟨rm.counter, checksumOf r⟩ },
          remote := (createTask rm (convertObsidianToGoogleTask r)).1,
          status := ItemStatus.recreated,
          writes := [none, some ⟨rm.counter, checksumOf r⟩] }) ∧
    (∀ t, getTask rm md.id = some t → t.status = MTaskStatus.completed →
      r.checkbox = CheckboxState.unchecked →
      syncItem act rm r =
        { reminder := { r with
            checkbox := CheckboxState.checked, done := true,
            metadata := some ⟨md.id,
              checksumOf { r with checkbox := CheckboxState.checked, done := true }⟩ },
          remote := rm, status := ItemStatus.completedLocally, writes := [] }) := by
  constructor
  · intro hget
    rw [syncItem_existing hok hmd, handleExisting_stale hact, stale_404 hget]
  · intro t hget hst hcb
    rw [syncItem_existing hok hmd, handleExisting_stale hact,
      stale_completed_flip hget hst hok hcb hmd]

/-- Witness for `stale_link_resolution`: one reminder linked to id 3 —
against an empty store the fetch 404s and the item is recreated; against a
store holding id 3 completed the item is mirrored and the store is
untouched. -/
theorem stale_link_resolution_witness :
    (syncItem ([] : List MTask) { tasks := [], counter := 7 }
        { title := "Buy milk", due := none, done := false, lineOk := true,
          checkbox := CheckboxState.unchecked, metadata := some ⟨3, "h1"⟩ }).status =
      ItemStatus.recreated ∧
    (syncItem ([] : List MTask)
        { tasks := [{ id := 3, title := "Buy milk", due := none,
                      status := MTaskStatus.completed, hidden := false }], counter := 7 }
        { title := "Buy milk", due := none, done := false, lineOk := true,
          checkbox := CheckboxState.unchecked, metadata := some ⟨3, "h1"⟩ }).remote =
      { tasks := [{ id := 3, title := "Buy milk", due := none,
                    status := MTaskStatus.completed, hidden := false }], counter := 7 } := by
  constructor
  · rw [(stale_link_resolution [] { tasks := [], counter := 7 }
      { title := "Buy milk", due := none, done := false, lineOk := true,
        checkbox := CheckboxState.unchecked, metadata := some ⟨3, "h1"⟩ }
      ⟨3, "h1"⟩ rfl rfl rfl).1 rfl]
  · rw [(stale_link_resolution []
      { tasks := [{ id := 3, title := "Buy milk", due := none,
                    status := MTaskStatus.completed, hidden := false }], counter := 7 }
      { title := "Buy milk", due := none, done := false, lineOk := true,
        checkbox := CheckboxState.unchecked, metadata := some ⟨3, "h1"⟩ }
      ⟨3, "h1"⟩ rfl rfl rfl).2
      { id := 3, title := "Buy milk", due := none,
        status := MTaskStatus.completed, hidden := false } rfl rfl rfl]

end GT
